import Mathlib

/-!
# Ice-cream recipe book: a shallow embedding of `main.go`

The program is a CRUD web application over one SQLite table.  This file embeds

* the parts of Go's `strings`, `strconv`, `time` and `net/http` packages that
  `main.go` calls, following the behaviour of the standard library;
* the table `recipes` together with the five repository functions
  (`getAllRecipes`, `createRecipe`, `getRecipeByID`, `updateRecipe`,
  `deleteRecipe`), as state passing over a `Store`;
* the four fragment handlers (`recipeDetailHandler`, `editRecipeHandler`,
  `deleteRecipeHandler`, `addRecipeFormHandler`), with their HTML text.

Go strings are modelled by Lean strings, Go `int` by `Int` (64 bit, the bounds
are explicit where `strconv` depends on them), `error` by `Option` of the
error text or of a `NumError`.
-/

namespace RecipeBook

/-! ## Package `strings` -/

namespace strings

/-- The predicate `unicode.IsSpace`, the code points with the Unicode property `White_Space`:
in Latin-1 `\t \n \v \f \r`, the blank, U+0085 and U+00A0; beyond it U+1680, U+2000 to
U+200A, U+2028, U+2029, U+202F, U+205F and U+3000. -/
def IsSpace (c : Char) : Bool :=
  let r := c.toNat
  r == 0x09 || r == 0x0A || r == 0x0B || r == 0x0C || r == 0x0D || r == 0x20 ||
  r == 0x85 || r == 0xA0 || r == 0x1680 || (0x2000 ≤ r && r ≤ 0x200A) ||
  r == 0x2028 || r == 0x2029 || r == 0x202F || r == 0x205F || r == 0x3000

/-- Go `strings.TrimSpace`: the string without its leading and trailing white space. -/
def TrimSpace (s : String) : String :=
  ⟨((s.data.dropWhile IsSpace).reverse.dropWhile IsSpace).reverse⟩

/-- The pieces of a character sequence between the occurrences of `sep`. -/
def splitChars (sep : Char) : List Char → List (List Char)
  | [] => [[]]
  | c :: cs =>
    if c = sep then [] :: splitChars sep cs
    else
      match splitChars sep cs with
      | [] => [[c]]
      | l :: ls => (c :: l) :: ls

/-- Go `strings.Split(s, sep)` for a one-character separator (the program only splits on
the newline): the substrings between the separators, `n + 1` of them when `sep` occurs
`n` times, so that the empty string yields one empty substring. -/
def Split (s : String) (sep : Char) : List String :=
  (splitChars sep s.data).map String.mk

/-- Go `strings.TrimPrefix`: `s` without the leading `pre`, or `s` itself when it does not
start with `pre`. -/
def TrimPrefix (s pre : String) : String :=
  if pre.data.isPrefixOf s.data then ⟨s.data.drop pre.data.length⟩ else s

end strings

/-! ## Package `strconv` -/

namespace strconv

/-- The two errors a conversion reports: `ErrSyntax` and `ErrRange`. -/
inductive ConvError where
  | ErrSyntax
  | ErrRange
  deriving DecidableEq, Repr

/-- The text of `ErrSyntax.Error()` and of `ErrRange.Error()`. -/
def ConvError.Error : ConvError → String
  | .ErrSyntax => "invalid syntax"
  | .ErrRange => "value out of range"

/-- Go `strconv.NumError`: the failing function, the input and the reason. -/
structure NumError where
  Func : String
  Num : String
  Err : ConvError
  deriving DecidableEq, Repr

/-- Go `syntaxError(fn, str)`. -/
def syntaxError (fn str : String) : NumError := ⟨fn, str, .ErrSyntax⟩

/-- Go `rangeError(fn, str)`. -/
def rangeError (fn str : String) : NumError := ⟨fn, str, .ErrRange⟩

/-- The constant `strconv.IntSize` of a 64-bit platform. -/
def intSize : Nat := 64

/-- The largest `uint64`. -/
def maxUint64 : Nat := 2 ^ 64 - 1

/-- Whether the byte is one of `'0'` to `'9'`. -/
def isDigit (c : Char) : Bool := 48 ≤ c.toNat && c.toNat ≤ 57

/-- The loop of `ParseUint` for base 10 and 64 bits over the remaining characters, `n` the
value so far.  A character that is not a decimal digit is a syntax error; an overflow is a
range error with value `maxVal`, reported as soon as it happens (the rest is not read). -/
def parseUintLoop (s0 : String) : List Char → Nat → Nat × Option NumError
  | [], n => (n, none)
  | c :: cs, n =>
    if !isDigit c then (0, some (syntaxError "ParseUint" s0))
    else
      let d := c.toNat - 48
      let cutoff := maxUint64 / 10 + 1
      let maxVal := 2 ^ 64 - 1
      if n ≥ cutoff then (maxVal, some (rangeError "ParseUint" s0))
      else
        let n10 := n * 10
        let n1 := (n10 + d) % 2 ^ 64
        if n1 < n10 ∨ n1 > maxVal then (maxVal, some (rangeError "ParseUint" s0))
        else parseUintLoop s0 cs n1

/-- Go `strconv.ParseUint(s, 10, 0)`. -/
def ParseUint (s : String) : Nat × Option NumError :=
  if s = "" then (0, some (syntaxError "ParseUint" s))
  else parseUintLoop s s.data 0

/-- Go `strconv.ParseInt(s, 10, 0)`: an optional sign, then `ParseUint`; a syntax error
gives value 0, a value outside the `int` range gives the nearest bound and a range error. -/
def ParseInt (s : String) : Int × Option NumError :=
  if s = "" then (0, some (syntaxError "ParseInt" s))
  else
    let s0 := s
    let neg := s.data.head? = some '-'
    let body : String :=
      if s.data.head? = some '+' then ⟨s.data.tail⟩
      else if s.data.head? = some '-' then ⟨s.data.tail⟩
      else s
    let (un, err) := ParseUint body
    match err with
    | some ⟨_, _, .ErrSyntax⟩ => (0, some ⟨"ParseInt", s0, .ErrSyntax⟩)
    | _ =>
      let cutoff : Nat := 2 ^ (intSize - 1)
      if !neg ∧ un ≥ cutoff then (((cutoff - 1 : Nat) : Int), some (rangeError "ParseInt" s0))
      else if neg ∧ un > cutoff then (-(cutoff : Int), some (rangeError "ParseInt" s0))
      else (if neg then -(un : Int) else (un : Int), none)

/-- The digit loop of the fast path of `Atoi`: `none` at a byte that is not a digit. -/
def atoiLoop : List Char → Int → Option Int
  | [], n => some n
  | ch :: cs, n =>
    if !isDigit ch then none
    else atoiLoop cs (n * 10 + ((ch.toNat - 48 : Nat) : Int))

/-- Go `strconv.Atoi`: the value and the error (`none` for `nil`).  Strings of 1 to 18
bytes take the fast path, all others go through `ParseInt`, whose error is renamed. -/
def Atoi (s : String) : Int × Option NumError :=
  let sLen := s.utf8ByteSize
  if (intSize = 32 ∧ 0 < sLen ∧ sLen < 10) ∨ (intSize = 64 ∧ 0 < sLen ∧ sLen < 19) then
    let s0 := s
    let signed := s.data.head? = some '-' ∨ s.data.head? = some '+'
    let body := if signed then s.data.tail else s.data
    if signed ∧ body.length < 1 then (0, some (syntaxError "Atoi" s0))
    else
      match atoiLoop body 0 with
      | none => (0, some (syntaxError "Atoi" s0))
      | some n => (if s0.data.head? = some '-' then -n else n, none)
  else
    let (i64, err) := ParseInt s
    (i64, err.map fun nerr => { nerr with Func := "Atoi" })

/-- Go `strconv.Itoa`: the decimal text of an `int`. -/
def Itoa (i : Int) : String := toString i

/-- The table `lowerhex` of package `strconv`. -/
def lowerhex (n : Nat) : Char := "0123456789abcdef".data.getD n '0'

/-- Go `strconv.IsPrint`, exact on Latin-1; beyond it the answer comes from the Unicode
tables of the standard library, passed as `wide`. -/
def IsPrint (wide : Char → Bool) (c : Char) : Bool :=
  let r := c.toNat
  if r ≤ 0xFF then
    if 0x20 ≤ r ∧ r < 0x7F then true
    else if 0xA1 ≤ r ∧ r ≤ 0xFF then r != 0xAD
    else false
  else wide c

/-- Go `appendEscapedRune(buf, r, '"', false, false)`. -/
def appendEscapedRune (wide : Char → Bool) (buf : String) (c : Char) : String :=
  let r := c.toNat
  if c = '"' ∨ c = '\\' then (buf.push '\\').push c
  else if IsPrint wide c then buf.push c
  else if r = 0x07 then buf ++ "\\a"
  else if r = 0x08 then buf ++ "\\b"
  else if r = 0x0C then buf ++ "\\f"
  else if r = 0x0A then buf ++ "\\n"
  else if r = 0x0D then buf ++ "\\r"
  else if r = 0x09 then buf ++ "\\t"
  else if r = 0x0B then buf ++ "\\v"
  else if r < 0x20 ∨ r = 0x7F then
    ((buf ++ "\\x").push (lowerhex (r / 16))).push (lowerhex (r % 16))
  else if r < 0x10000 then
    [12, 8, 4, 0].foldl (fun b s => b.push (lowerhex (r / 2 ^ s % 16))) (buf ++ "\\u")
  else
    [28, 24, 20, 16, 12, 8, 4, 0].foldl (fun b s => b.push (lowerhex (r / 2 ^ s % 16)))
      (buf ++ "\\U")

/-- Go `strconv.Quote`: the string as a double-quoted Go string literal. -/
def Quote (wide : Char → Bool) (s : String) : String :=
  (s.data.foldl (appendEscapedRune wide) "\"").push '"'

/-- Go `(*NumError).Error()`, the text of a conversion error. -/
def NumError.Error (wide : Char → Bool) (e : NumError) : String :=
  "strconv." ++ e.Func ++ ": " ++ "parsing " ++ Quote wide e.Num ++ ": " ++ e.Err.Error

end strconv

/-! ## Package `time` -/

namespace time

/-- A `time.Time` in UTC with second precision, as seconds since the Unix epoch. -/
abbrev Time := Int

/-- The zero `time.Time`: January 1 of year 1, 00:00:00 UTC. -/
def zero : Time := -62135596800

/-- The English month names of package `time`. -/
def longMonthNames : List String :=
  ["January", "February", "March", "April", "May", "June", "July", "August",
   "September", "October", "November", "December"]

/-- Year, month (1 to 12) and day of the month of a time, in the proleptic Gregorian
calendar in UTC. -/
def Date (t : Time) : Int × Nat × Nat :=
  let z := t / 86400 + 719468
  let era := z / 146097
  let doe := (z - era * 146097).toNat
  let yoe := (doe - doe / 1460 + doe / 36524 - doe / 146096) / 365
  let doy := doe - (365 * yoe + yoe / 4 - yoe / 100)
  let mp := (5 * doy + 2) / 153
  let d := doy - (153 * mp + 2) / 5 + 1
  let m := if mp < 10 then mp + 3 else mp - 9
  let y := (yoe : Int) + era * 400 + (if m ≤ 2 then 1 else 0)
  (y, m, d)

/-- The year as `Format` prints it for `2006`: at least four digits. -/
def formatYear (y : Int) : String :=
  let pad (n : Nat) : String := String.mk (List.replicate (4 - (toString n).length) '0') ++ toString n
  if y < 0 then "-" ++ pad y.natAbs else pad y.natAbs

/-- Go `t.Format("January 2, 2006")`. -/
def Format (t : Time) : String :=
  let (y, m, d) := Date t
  longMonthNames.getD (m - 1) "" ++ " " ++ toString d ++ ", " ++ formatYear y

end time

/-! ## The table `recipes` and the repository functions -/

/-- The Go struct `Recipe`. -/
structure Recipe where
  ID : Int
  Name : String
  Ingredients : String
  Instructions : String
  PrepTime : Int
  CreatedAt : time.Time
  deriving DecidableEq, Repr

/-- A row of the table `recipes` created by `initDB`.  The only `INSERT` of the program
binds four Go values and leaves `created_at` to its default, so no column is ever `NULL`.
`created_at` is the value of `CURRENT_TIMESTAMP`, a UTC time with one-second resolution. -/
structure Row where
  id : Int
  name : String
  ingredients : String
  instructions : String
  prep_time : Int
  created_at : time.Time
  deriving DecidableEq, Repr

/-- The database behind the global `db`: the rows of `recipes` in rowid order, and the
entry of `sqlite_sequence` that `AUTOINCREMENT` keeps for the table (the largest rowid
handed out so far, 0 for a fresh table). -/
structure Store where
  rows : List Row
  seq : Int
  deriving DecidableEq, Repr

/-- The largest rowid SQLite can store. -/
def MAX_ROWID : Int := 9223372036854775807

/-- The database right after `CREATE TABLE`: no rows, no rowid handed out. -/
def Store.empty : Store := ⟨[], 0⟩

/-- What `rows.Scan(&recipe.ID, &recipe.Name, ...)` stores into a `Recipe`. -/
def Row.Scan (row : Row) : Recipe :=
  ⟨row.id, row.name, row.ingredients, row.instructions, row.prep_time, row.created_at⟩

/-- The largest rowid present in the table (the key SQLite finds with `BtreeLast`),
`none` for an empty table. -/
def lastRowid : List Row → Option Int
  | [] => none
  | row :: rows =>
    match lastRowid rows with
    | none => some row.id
    | some m => some (max row.id m)

/-- The rowid an `INSERT` into the `AUTOINCREMENT` table picks (SQLite `OP_NewRowid`):
one more than the largest rowid in the table (1 for an empty table), raised to one more
than the `sqlite_sequence` entry; `none` (`SQLITE_FULL`) once `MAX_ROWID` has been used. -/
def newRowid (db : Store) : Option Int :=
  let (v, useRandomRowid) : Int × Bool :=
    match lastRowid db.rows with
    | none => (1, false)
    | some last => if last ≥ MAX_ROWID then (last, true) else (last + 1, false)
  if db.seq = MAX_ROWID ∨ useRandomRowid = true then none
  else some (if v < db.seq + 1 then db.seq + 1 else v)

/-- The order of `ORDER BY created_at DESC`. -/
def createdAtDesc (a b : Row) : Prop := b.created_at ≤ a.created_at

instance : DecidableRel createdAtDesc := fun a b =>
  inferInstanceAs (Decidable (b.created_at ≤ a.created_at))

/-- `getAllRecipes`: `SELECT ... FROM recipes ORDER BY created_at DESC`, each row scanned
into a `Recipe`.  The rows are read in rowid order and sorted by `created_at`, newest
first; SQLite's sorter keeps rows with equal keys in the order it read them, so the sort
is stable.  The error is always `nil` here: failures of the database file itself are not
modelled. -/
def getAllRecipes (db : Store) : List Recipe × Option String :=
  let rows := List.insertionSort createdAtDesc db.rows
  (rows.map Row.Scan, none)

/-- `createRecipe`: `INSERT INTO recipes (name, ingredients, instructions, prep_time)
VALUES (?, ?, ?, ?)` run when the database clock shows `now`.  The rowid comes from
`newRowid` and `created_at` from the column default; `recipe.ID` and `recipe.CreatedAt`
are not part of the statement.  Returns the error and the new database. -/
def createRecipe (now : time.Time) (recipe : Recipe) (db : Store) : Option String × Store :=
  match newRowid db with
  | none => (some "database or disk is full", db)
  | some v =>
    (none, ⟨db.rows ++ [⟨v, recipe.Name, recipe.Ingredients, recipe.Instructions,
      recipe.PrepTime, now⟩], v⟩)

/-- `getRecipeByID`: `SELECT ... WHERE id = ?` through `QueryRow(...).Scan`, which takes
the first row of the result and reports `sql.ErrNoRows` when there is none. -/
def getRecipeByID (id : Int) (db : Store) : Except String Recipe :=
  match db.rows.find? (fun row => row.id = id) with
  | none => .error "sql: no rows in result set"
  | some row => .ok row.Scan

/-- `updateRecipe`: `UPDATE recipes SET name = ?, ingredients = ?, instructions = ?,
prep_time = ? WHERE id = ?`.  `db.Exec` reports no error when the statement matches no
row, and the result with the number of rows is dropped; failures of the database file
itself are not modelled. -/
def updateRecipe (recipe : Recipe) (db : Store) : Option String × Store :=
  (none, { db with rows := db.rows.map fun row =>
    if row.id = recipe.ID then
      { row with name := recipe.Name, ingredients := recipe.Ingredients,
                 instructions := recipe.Instructions, prep_time := recipe.PrepTime }
    else row })

/-- `deleteRecipe`: `DELETE FROM recipes WHERE id = ?`, with the same error behaviour as
`updateRecipe`. -/
def deleteRecipe (id : Int) (db : Store) : Option String × Store :=
  (none, { db with rows := db.rows.filter fun row => row.id ≠ id })

/-- The two recipes `insertSampleData` inserts. -/
def sampleRecipes : List Recipe :=
  [ { ID := 0, Name := "Vanilla Bean",
      Ingredients := "2 cups heavy cream\n1 cup milk\n3/4 cup sugar\n1 vanilla bean\n6 egg yolks",
      Instructions := "Heat cream and milk\nWhisk egg yolks with sugar\nTemper eggs with hot cream\nCook until thick\nStrain and chill\nChurn in ice cream maker",
      PrepTime := 45, CreatedAt := time.zero },
    { ID := 0, Name := "Chocolate Fudge",
      Ingredients := "2 cups heavy cream\n1 cup milk\n3/4 cup sugar\n1/2 cup cocoa powder\n6 egg yolks\n1/2 cup fudge sauce",
      Instructions := "Whisk cocoa with sugar\nHeat cream and milk\nWhisk egg yolks\nTemper eggs with hot cream mixture\nCook until thick\nAdd fudge swirls\nChurn in ice cream maker",
      PrepTime := 50, CreatedAt := time.zero } ]

/-- `insertSampleData`: `createRecipe` on each sample in turn, the errors dropped.  `clock`
gives the database time at each of the two inserts. -/
def insertSampleData (clock : List time.Time) (db : Store) : Store :=
  (sampleRecipes.zip clock).foldl (fun db p => (createRecipe p.2 p.1 db).2) db

/-- `initDB` on an opened database: the table exists afterwards, and an empty table is
seeded with the samples. -/
def initDB (clock : List time.Time) (db : Store) : Store :=
  let count := db.rows.length
  if count = 0 then insertSampleData clock db else db

/-! ## Package `net/http` -/

namespace http

/-- The part of `*http.Request` the handlers read: the method, `r.URL.Path`, and what
`r.ParseForm()` yields, either its error text or the form as key-value pairs in the order
of `r.Form` (body values before query values). -/
structure Request where
  Method : String
  Path : String
  ParseForm : Except String (List (String × String))

/-- Go `r.FormValue(key)` on a parsed form: the first value for `key`, the empty string
when the key is absent. -/
def FormValue (form : List (String × String)) (key : String) : String :=
  match form.find? (fun kv => kv.1 = key) with
  | some kv => kv.2
  | none => ""

/-- What an `http.ResponseWriter` has collected when the handler returns.  The status is
200 unless `WriteHeader` set another one. -/
structure ResponseWriter where
  ContentType : String
  Status : Nat
  Body : String
  deriving DecidableEq, Repr

/-- A writer nothing has been written to. -/
def ResponseWriter.new : ResponseWriter := ⟨"", 200, ""⟩

/-- Go `w.Header().Set("Content-Type", v)`. -/
def ResponseWriter.SetContentType (w : ResponseWriter) (v : String) : ResponseWriter :=
  { w with ContentType := v }

/-- Go `w.Write([]byte(html))`. -/
def ResponseWriter.Write (w : ResponseWriter) (html : String) : ResponseWriter :=
  { w with Body := w.Body ++ html }

def StatusBadRequest : Nat := 400
def StatusNotFound : Nat := 404
def StatusMethodNotAllowed : Nat := 405
def StatusInternalServerError : Nat := 500

/-- Go `http.Error(w, error, code)`: a plain-text response with the given status whose
body is `error` followed by a newline. -/
def Error (w : ResponseWriter) (error : String) (code : Nat) : ResponseWriter :=
  { ContentType := "text/plain; charset=utf-8", Status := code, Body := w.Body ++ error ++ "\n" }

end http

/-! ## The handlers -/

/-- The loop `for _, x := range list { if strings.TrimSpace(x) != "" { html += "<li>" +
strings.TrimSpace(x) + "</li>" } }` that every fragment uses. -/
def appendItems (html : String) (list : List String) : String :=
  list.foldl (fun html x =>
    if strings.TrimSpace x ≠ "" then html ++ "<li>" ++ strings.TrimSpace x ++ "</li>"
    else html) html

/-- The detail fragment up to the opening `<ul>` of the ingredients. -/
def recipeDetailHandler.htmlHead (recipe : Recipe) : String :=
  "\n" ++
  "\t<div class=\"modal-content\">\n" ++
  "\t\t<button onclick=\"this.closest(\'.modal\').style.display=\'none\'\" style=\"float: right; background: none; border: none; font-size: 1.5rem; cursor: pointer;\">&times;</button>\n" ++
  "\t\t<h3>" ++
  recipe.Name ++
  "</h3>\n" ++
  "\t\t<p><strong>Prep Time:</strong> " ++
  strconv.Itoa recipe.PrepTime ++
  " minutes</p>\n" ++
  "\t\t<p><strong>Created:</strong> " ++
  time.Format recipe.CreatedAt ++
  "</p>\n" ++
  "\t\t\n" ++
  "\t\t<div style=\"margin: 1rem 0;\">\n" ++
  "\t\t\t<h4>Ingredients:</h4>\n" ++
  "\t\t\t<ul>"

/-- The detail fragment between the ingredients and the instructions. -/
def recipeDetailHandler.htmlMid : String :=
  "</ul>\n" ++
  "\t\t</div>\n" ++
  "\t\t\n" ++
  "\t\t<div style=\"margin: 1rem 0;\">\n" ++
  "\t\t\t<h4>Instructions:</h4>\n" ++
  "\t\t\t<ol>"

/-- The detail fragment from the closing `</ol>` of the instructions on. -/
def recipeDetailHandler.htmlTail (recipe : Recipe) : String :=
  "</ol>\n" ++
  "\t\t</div>\n" ++
  "\t\t\n" ++
  "\t\t<div style=\"display: flex; gap: 1rem; margin-top: 2rem;\">\n" ++
  "\t\t\t<button hx-get=\"/edit-recipe/" ++
  strconv.Itoa recipe.ID ++
  "\" hx-target=\"#recipe-detail\" class=\"btn btn-primary\">Edit Recipe</button>\n" ++
  "\t\t\t<button hx-delete=\"/delete-recipe/" ++
  strconv.Itoa recipe.ID ++
  "\" hx-target=\"#recipe-list\" hx-swap=\"outerHTML\" hx-confirm=\"Are you sure you want to delete this recipe?\" class=\"btn btn-secondary\" style=\"background: #dc3545; color: white; border-color: #dc3545;\">Delete Recipe</button>\n" ++
  "\t\t\t<button onclick=\"this.closest(\'.modal\').style.display=\'none\'\" class=\"btn btn-secondary\">Close</button>\n" ++
  "\t\t</div>\n" ++
  "\t</div>\n" ++
  "\t<script>\n" ++
  "\t\tdocument.querySelector(\'#recipe-detail\').style.display = \'flex\';\n" ++
  "\t</script>"

/-- The detail fragment `recipeDetailHandler` builds for a recipe. -/
def recipeDetailHandler.html (recipe : Recipe) : String :=
  let ingredientsList := strings.Split recipe.Ingredients '\n'
  let instructionsList := strings.Split recipe.Instructions '\n'
  let html := recipeDetailHandler.htmlHead recipe
  let html := appendItems html ingredientsList
  let html := html ++ recipeDetailHandler.htmlMid
  let html := appendItems html instructionsList
  html ++ recipeDetailHandler.htmlTail recipe

/-- `recipeDetailHandler`, serving `/recipe/`. -/
def recipeDetailHandler (r : http.Request) (db : Store) : http.ResponseWriter × Store :=
  let w := http.ResponseWriter.new.SetContentType "text/html"
  let idStr := strings.TrimPrefix r.Path "/recipe/"
  let (id, err) := strconv.Atoi idStr
  if err ≠ none then (http.Error w "Invalid recipe ID" http.StatusBadRequest, db)
  else
    match getRecipeByID id db with
    | .error _ => (http.Error w "Recipe not found" http.StatusNotFound, db)
    | .ok recipe => (w.Write (recipeDetailHandler.html recipe), db)

/-- The edit form `editRecipeHandler` builds for a recipe. -/
def editRecipeHandler.form (recipe : Recipe) : String :=
  "\n" ++
  "\t\t<div class=\"modal-content\">\n" ++
  "\t\t\t<button onclick=\"this.closest(\'.modal\').style.display=\'none\'\" style=\"float: right; background: none; border: none; font-size: 1.5rem; cursor: pointer;\">&times;</button>\n" ++
  "\t\t\t<h3>Edit Recipe</h3>\n" ++
  "\t\t\t<form hx-put=\"/edit-recipe/" ++
  strconv.Itoa recipe.ID ++
  "\" hx-target=\"#recipe-list\" hx-swap=\"outerHTML\">\n" ++
  "\t\t\t\t<div style=\"margin-bottom: 1rem;\">\n" ++
  "\t\t\t\t\t<label for=\"name\" style=\"display: block; margin-bottom: 0.5rem; font-weight: 600;\">Recipe Name:</label>\n" ++
  "\t\t\t\t\t<input type=\"text\" id=\"name\" name=\"name\" value=\"" ++
  recipe.Name ++
  "\" required style=\"width: 100%; padding: 8px; border: 1px solid #ddd; border-radius: 4px;\">\n" ++
  "\t\t\t\t</div>\n" ++
  "\t\t\t\t<div style=\"margin-bottom: 1rem;\">\n" ++
  "\t\t\t\t\t<label for=\"ingredients\" style=\"display: block; margin-bottom: 0.5rem; font-weight: 600;\">Ingredients (one per line):</label>\n" ++
  "\t\t\t\t\t<textarea id=\"ingredients\" name=\"ingredients\" required style=\"width: 100%; padding: 8px; border: 1px solid #ddd; border-radius: 4px; height: 100px;\">" ++
  recipe.Ingredients ++
  "</textarea>\n" ++
  "\t\t\t\t</div>\n" ++
  "\t\t\t\t<div style=\"margin-bottom: 1rem;\">\n" ++
  "\t\t\t\t\t<label for=\"instructions\" style=\"display: block; margin-bottom: 0.5rem; font-weight: 600;\">Instructions (one per line):</label>\n" ++
  "\t\t\t\t\t<textarea id=\"instructions\" name=\"instructions\" required style=\"width: 100%; padding: 8px; border: 1px solid #ddd; border-radius: 4px; height: 100px;\">" ++
  recipe.Instructions ++
  "</textarea>\n" ++
  "\t\t\t\t</div>\n" ++
  "\t\t\t\t<div style=\"margin-bottom: 1rem;\">\n" ++
  "\t\t\t\t\t<label for=\"prep_time\" style=\"display: block; margin-bottom: 0.5rem; font-weight: 600;\">Prep Time (minutes):</label>\n" ++
  "\t\t\t\t\t<input type=\"number\" id=\"prep_time\" name=\"prep_time\" value=\"" ++
  strconv.Itoa recipe.PrepTime ++
  "\" min=\"1\" style=\"width: 100%; padding: 8px; border: 1px solid #ddd; border-radius: 4px;\">\n" ++
  "\t\t\t\t</div>\n" ++
  "\t\t\t\t<div style=\"display: flex; gap: 1rem;\">\n" ++
  "\t\t\t\t\t<button type=\"submit\" class=\"btn btn-primary\">Update Recipe</button>\n" ++
  "\t\t\t\t\t<button type=\"button\" onclick=\"this.closest(\'.modal\').style.display=\'none\'\" class=\"btn btn-secondary\">Cancel</button>\n" ++
  "\t\t\t\t</div>\n" ++
  "\t\t\t</form>\n" ++
  "\t\t</div>\n" ++
  "\t\t<script>\n" ++
  "\t\t\tdocument.querySelector(\'#recipe-detail\').style.display = \'flex\';\n" ++
  "\t\t</script>"

/-- The struct literal `updatedRecipe` of `editRecipeHandler`: the id of the path and the
fields of the form, `prepTime` being the value of `strconv.Atoi` with its error dropped. -/
def editRecipeHandler.updatedRecipe (id : Int) (form : List (String × String)) : Recipe :=
  let prepTime := (strconv.Atoi (http.FormValue form "prep_time")).1
  { ID := id,
    Name := http.FormValue form "name",
    Ingredients := http.FormValue form "ingredients",
    Instructions := http.FormValue form "instructions",
    PrepTime := prepTime,
    CreatedAt := time.zero }

/-- The opening of the recipe grid `editRecipeHandler` renders after an update. -/
def editRecipeHandler.gridHead : String :=
  "<div id=\"recipe-list\" class=\"recipe-grid\">"

/-- A recipe card of that grid up to its opening `<ul>`. -/
def editRecipeHandler.cardHead (recipe : Recipe) : String :=
  "\n" ++
  "\t\t\t<div class=\"recipe-card\">\n" ++
  "\t\t\t\t<h3>" ++
  recipe.Name ++
  "</h3>\n" ++
  "\t\t\t\t<p><strong>Prep Time:</strong> " ++
  strconv.Itoa recipe.PrepTime ++
  " minutes</p>\n" ++
  "\t\t\t\t<p><strong>Ingredients:</strong></p>\n" ++
  "\t\t\t\t<ul>"

/-- A recipe card of that grid from its closing `</ul>` on. -/
def editRecipeHandler.cardTail (recipe : Recipe) : String :=
  "</ul>\n" ++
  "\t\t\t\t<button hx-get=\"/recipe/" ++
  strconv.Itoa recipe.ID ++
  "\" hx-target=\"#recipe-detail\" class=\"btn btn-primary\">View Details</button>\n" ++
  "\t\t\t</div>"

/-- The end of that grid. -/
def editRecipeHandler.gridTail : String :=
  "</div>\n" ++
  "\t\t<script>\n" ++
  "\t\t\tdocument.querySelector(\'#recipe-detail\').style.display = \'none\';\n" ++
  "\t\t</script>"

/-- The recipe grid `editRecipeHandler` renders after an update. -/
def editRecipeHandler.grid (recipes : List Recipe) : String :=
  let html := editRecipeHandler.gridHead
  let html := recipes.foldl (fun html recipe =>
    let ingredientsList := strings.Split recipe.Ingredients '\n'
    let html := html ++ editRecipeHandler.cardHead recipe
    let html := appendItems html ingredientsList
    html ++ editRecipeHandler.cardTail recipe) html
  html ++ editRecipeHandler.gridTail

/-- `editRecipeHandler`, serving `/edit-recipe/`. -/
def editRecipeHandler (r : http.Request) (db : Store) : http.ResponseWriter × Store :=
  let w := http.ResponseWriter.new.SetContentType "text/html"
  let idStr := strings.TrimPrefix r.Path "/edit-recipe/"
  let (id, err) := strconv.Atoi idStr
  if err ≠ none then (http.Error w "Invalid recipe ID" http.StatusBadRequest, db)
  else if r.Method = "GET" then
    match getRecipeByID id db with
    | .error _ => (http.Error w "Recipe not found" http.StatusNotFound, db)
    | .ok recipe => (w.Write (editRecipeHandler.form recipe), db)
  else if r.Method = "PUT" then
    match r.ParseForm with
    | .error err => (http.Error w err http.StatusBadRequest, db)
    | .ok form =>
      let updatedRecipe := editRecipeHandler.updatedRecipe id form
      match updateRecipe updatedRecipe db with
      | (some err, db) => (http.Error w err http.StatusInternalServerError, db)
      | (none, db) =>
        match getAllRecipes db with
        | (_, some err) => (http.Error w err http.StatusInternalServerError, db)
        | (recipes, none) => (w.Write (editRecipeHandler.grid recipes), db)
  else (w, db)

/-- The opening of the recipe grid `deleteRecipeHandler` renders after a delete. -/
def deleteRecipeHandler.gridHead : String :=
  "<div id=\"recipe-list\" class=\"recipe-grid\">"

/-- A recipe card of that grid up to its opening `<ul>`. -/
def deleteRecipeHandler.cardHead (recipe : Recipe) : String :=
  "\n" ++
  "\t\t<div class=\"recipe-card\">\n" ++
  "\t\t\t<h3>" ++
  recipe.Name ++
  "</h3>\n" ++
  "\t\t\t<p><strong>Prep Time:</strong> " ++
  strconv.Itoa recipe.PrepTime ++
  " minutes</p>\n" ++
  "\t\t\t<p><strong>Ingredients:</strong></p>\n" ++
  "\t\t\t<ul>"

/-- A recipe card of that grid from its closing `</ul>` on. -/
def deleteRecipeHandler.cardTail (recipe : Recipe) : String :=
  "</ul>\n" ++
  "\t\t\t<button hx-get=\"/recipe/" ++
  strconv.Itoa recipe.ID ++
  "\" hx-target=\"#recipe-detail\" class=\"btn btn-primary\">View Details</button>\n" ++
  "\t\t</div>"

/-- The end of that grid. -/
def deleteRecipeHandler.gridTail : String :=
  "</div>\n" ++
  "\t<script>\n" ++
  "\t\tdocument.querySelector(\'#recipe-detail\').style.display = \'none\';\n" ++
  "\t</script>"

/-- The recipe grid `deleteRecipeHandler` renders after a delete. -/
def deleteRecipeHandler.grid (recipes : List Recipe) : String :=
  let html := deleteRecipeHandler.gridHead
  let html := recipes.foldl (fun html recipe =>
    let ingredientsList := strings.Split recipe.Ingredients '\n'
    let html := html ++ deleteRecipeHandler.cardHead recipe
    let html := appendItems html ingredientsList
    html ++ deleteRecipeHandler.cardTail recipe) html
  html ++ deleteRecipeHandler.gridTail

/-- `deleteRecipeHandler`, serving `/delete-recipe/`. -/
def deleteRecipeHandler (r : http.Request) (db : Store) : http.ResponseWriter × Store :=
  let w := http.ResponseWriter.new.SetContentType "text/html"
  if r.Method ≠ "DELETE" then
    (http.Error w "Method not allowed" http.StatusMethodNotAllowed, db)
  else
    let idStr := strings.TrimPrefix r.Path "/delete-recipe/"
    let (id, err) := strconv.Atoi idStr
    if err ≠ none then (http.Error w "Invalid recipe ID" http.StatusBadRequest, db)
    else
      match deleteRecipe id db with
      | (some err, db) => (http.Error w err http.StatusInternalServerError, db)
      | (none, db) =>
        match getAllRecipes db with
        | (_, some err) => (http.Error w err http.StatusInternalServerError, db)
        | (recipes, none) => (w.Write (deleteRecipeHandler.grid recipes), db)

/-- The empty creation form `addRecipeFormHandler` answers a GET with. -/
def addRecipeFormHandler.form : String :=
  "\n" ++
  "\t\t<div class=\"modal-content\">\n" ++
  "\t\t\t<button onclick=\"this.closest(\'.modal\').style.display=\'none\'\" style=\"float: right; background: none; border: none; font-size: 1.5rem; cursor: pointer;\">&times;</button>\n" ++
  "\t\t\t<h3>Add New Recipe</h3>\n" ++
  "\t\t\t<form hx-post=\"/add-recipe\" hx-target=\"#recipe-list\" hx-swap=\"outerHTML\">\n" ++
  "\t\t\t\t<div style=\"margin-bottom: 1rem;\">\n" ++
  "\t\t\t\t\t<label for=\"name\" style=\"display: block; margin-bottom: 0.5rem; font-weight: 600;\">Recipe Name:</label>\n" ++
  "\t\t\t\t\t<input type=\"text\" id=\"name\" name=\"name\" required style=\"width: 100%; padding: 8px; border: 1px solid #ddd; border-radius: 4px;\">\n" ++
  "\t\t\t\t</div>\n" ++
  "\t\t\t\t<div style=\"margin-bottom: 1rem;\">\n" ++
  "\t\t\t\t\t<label for=\"ingredients\" style=\"display: block; margin-bottom: 0.5rem; font-weight: 600;\">Ingredients (one per line):</label>\n" ++
  "\t\t\t\t\t<textarea id=\"ingredients\" name=\"ingredients\" required style=\"width: 100%; padding: 8px; border: 1px solid #ddd; border-radius: 4px; height: 100px;\" placeholder=\"2 cups heavy cream&#10;1 cup milk&#10;3/4 cup sugar\"></textarea>\n" ++
  "\t\t\t\t</div>\n" ++
  "\t\t\t\t<div style=\"margin-bottom: 1rem;\">\n" ++
  "\t\t\t\t\t<label for=\"instructions\" style=\"display: block; margin-bottom: 0.5rem; font-weight: 600;\">Instructions (one per line):</label>\n" ++
  "\t\t\t\t\t<textarea id=\"instructions\" name=\"instructions\" required style=\"width: 100%; padding: 8px; border: 1px solid #ddd; border-radius: 4px; height: 100px;\" placeholder=\"Heat cream and milk&#10;Whisk egg yolks with sugar&#10;Cook until thick\"></textarea>\n" ++
  "\t\t\t\t</div>\n" ++
  "\t\t\t\t<div style=\"margin-bottom: 1rem;\">\n" ++
  "\t\t\t\t\t<label for=\"prep_time\" style=\"display: block; margin-bottom: 0.5rem; font-weight: 600;\">Prep Time (minutes):</label>\n" ++
  "\t\t\t\t\t<input type=\"number\" id=\"prep_time\" name=\"prep_time\" min=\"1\" style=\"width: 100%; padding: 8px; border: 1px solid #ddd; border-radius: 4px;\">\n" ++
  "\t\t\t\t</div>\n" ++
  "\t\t\t\t<div style=\"display: flex; gap: 1rem;\">\n" ++
  "\t\t\t\t\t<button type=\"submit\" class=\"btn btn-primary\">Add Recipe</button>\n" ++
  "\t\t\t\t\t<button type=\"button\" onclick=\"this.closest(\'.modal\').style.display=\'none\'\" class=\"btn btn-secondary\">Cancel</button>\n" ++
  "\t\t\t\t</div>\n" ++
  "\t\t\t</form>\n" ++
  "\t\t</div>\n" ++
  "\t\t<script>\n" ++
  "\t\t\tdocument.querySelector(\'#recipe-modal\').style.display = \'flex\';\n" ++
  "\t\t</script>"

/-- The struct literal `newRecipe` of `addRecipeFormHandler`: the fields of the form,
`prepTime` being the value of `strconv.Atoi` with its error dropped. -/
def addRecipeFormHandler.newRecipe (form : List (String × String)) : Recipe :=
  let prepTime := (strconv.Atoi (http.FormValue form "prep_time")).1
  { ID := 0,
    Name := http.FormValue form "name",
    Ingredients := http.FormValue form "ingredients",
    Instructions := http.FormValue form "instructions",
    PrepTime := prepTime,
    CreatedAt := time.zero }

/-- The opening of the recipe grid `addRecipeFormHandler` renders after an insert. -/
def addRecipeFormHandler.gridHead : String :=
  "<div id=\"recipe-list\" class=\"recipe-grid\">"

/-- A recipe card of that grid up to its opening `<ul>`. -/
def addRecipeFormHandler.cardHead (recipe : Recipe) : String :=
  "\n" ++
  "\t\t\t<div class=\"recipe-card\">\n" ++
  "\t\t\t\t<h3>" ++
  recipe.Name ++
  "</h3>\n" ++
  "\t\t\t\t<p><strong>Prep Time:</strong> " ++
  strconv.Itoa recipe.PrepTime ++
  " minutes</p>\n" ++
  "\t\t\t\t<p><strong>Ingredients:</strong></p>\n" ++
  "\t\t\t\t<ul>"

/-- A recipe card of that grid from its closing `</ul>` on. -/
def addRecipeFormHandler.cardTail (recipe : Recipe) : String :=
  "</ul>\n" ++
  "\t\t\t\t<button hx-get=\"/recipe/" ++
  strconv.Itoa recipe.ID ++
  "\" hx-target=\"#recipe-detail\" class=\"btn btn-primary\">View Details</button>\n" ++
  "\t\t\t</div>"

/-- The end of that grid. -/
def addRecipeFormHandler.gridTail : String :=
  "</div>\n" ++
  "\t\t<script>\n" ++
  "\t\t\tdocument.querySelector(\'#recipe-modal\').style.display = \'none\';\n" ++
  "\t\t</script>"

/-- The recipe grid `addRecipeFormHandler` renders after an insert. -/
def addRecipeFormHandler.grid (recipes : List Recipe) : String :=
  let html := addRecipeFormHandler.gridHead
  let html := recipes.foldl (fun html recipe =>
    let ingredientsList := strings.Split recipe.Ingredients '\n'
    let html := html ++ addRecipeFormHandler.cardHead recipe
    let html := appendItems html ingredientsList
    html ++ addRecipeFormHandler.cardTail recipe) html
  html ++ addRecipeFormHandler.gridTail

/-- `addRecipeFormHandler`, serving `/add-recipe`; `now` is the database clock at the
time of the insert. -/
def addRecipeFormHandler (now : time.Time) (r : http.Request) (db : Store) :
    http.ResponseWriter × Store :=
  let w := http.ResponseWriter.new.SetContentType "text/html"
  if r.Method = "GET" then (w.Write addRecipeFormHandler.form, db)
  else if r.Method = "POST" then
    match r.ParseForm with
    | .error err => (http.Error w err http.StatusBadRequest, db)
    | .ok form =>
      let newRecipe := addRecipeFormHandler.newRecipe form
      match createRecipe now newRecipe db with
      | (some err, db) => (http.Error w err http.StatusInternalServerError, db)
      | (none, db) =>
        match getAllRecipes db with
        | (_, some err) => (http.Error w err http.StatusInternalServerError, db)
        | (recipes, none) => (w.Write (addRecipeFormHandler.grid recipes), db)
  else (w, db)


/-! ## Notions the statements below use -/

/-- The list items of a recipe text in words: the lines between newlines, each trimmed,
those that are empty after trimming left out, in the order of the lines. -/
def listItems (t : String) : List String :=
  ((strings.Split t '\n').map strings.TrimSpace).filter fun line => line ≠ ""

/-- The HTML of those items: one `<li>...</li>` after the other, nothing in between. -/
def renderItems (t : String) : String :=
  String.join ((listItems t).map fun item => "<li>" ++ item ++ "</li>")

/-- The invariant `AUTOINCREMENT` maintains: the `sqlite_sequence` entry is not negative
and no rowid of the table exceeds it. -/
def Store.WF (db : Store) : Prop :=
  0 ≤ db.seq ∧ ∀ row ∈ db.rows, row.id ≤ db.seq

/-- The rows of the table stand in the order of their rowids, which are distinct. -/
def Store.Ascending (db : Store) : Prop :=
  db.rows.Pairwise fun a b => a.id < b.id

/-- A call of one of the three repository functions that change the database. -/
inductive Op where
  | create (now : time.Time) (recipe : Recipe)
  | update (recipe : Recipe)
  | delete (id : Int)

/-- The database after a call. -/
def Op.apply (db : Store) : Op → Store
  | .create now recipe => (createRecipe now recipe db).2
  | .update recipe => (updateRecipe recipe db).2
  | .delete id => (deleteRecipe id db).2

/-- The database after a sequence of calls. -/
def run (ops : List Op) (db : Store) : Store :=
  ops.foldl Op.apply db

/-- The rowids the successful `createRecipe` calls of a sequence of calls assigned. -/
def assignedIds : List Op → Store → List Int
  | [], _ => []
  | .create now recipe :: ops, db =>
    match newRowid db with
    | some v => v :: assignedIds ops (createRecipe now recipe db).2
    | none => assignedIds ops (createRecipe now recipe db).2
  | op :: ops, db => assignedIds ops (op.apply db)

/-- The response `http.Error(w, "Invalid recipe ID", http.StatusBadRequest)`. -/
def invalidIdResponse : http.ResponseWriter :=
  ⟨"text/plain; charset=utf-8", 400, "Invalid recipe ID\n"⟩

instance : IsTotal Row createdAtDesc := ⟨fun a b => le_total b.created_at a.created_at⟩

instance : IsTrans Row createdAtDesc :=
  ⟨fun a b c (hab : b.created_at ≤ a.created_at) (hbc : c.created_at ≤ b.created_at) =>
    le_trans hbc hab⟩

/-! ## Auxiliary facts -/

theorem strings.TrimPrefix_append (pre s : String) : strings.TrimPrefix (pre ++ s) pre = s := by
  unfold strings.TrimPrefix
  have h : pre.data.isPrefixOf (pre ++ s).data = true := by
    rw [String.data_append, List.isPrefixOf_iff_prefix]
    exact List.prefix_append _ _
  rw [if_pos h]
  simp [String.data_append]

/-! ## The detail handler -/

/-- C1: `recipeDetailHandler` on the path `/recipe/` followed by `s`, whatever the method,
the form and the database: the status is 400 when `strconv.Atoi s` fails, otherwise 404
when no row has the parsed id, otherwise 200; the database is the same afterwards. -/
theorem recipeDetailHandler_status (m s : String) (f : Except String (List (String × String)))
    (db : Store) :
    ((strconv.Atoi s).2 ≠ none →
      (recipeDetailHandler ⟨m, "/recipe/" ++ s, f⟩ db).1.Status = 400) ∧
    ((strconv.Atoi s).2 = none → (∀ row ∈ db.rows, row.id ≠ (strconv.Atoi s).1) →
      (recipeDetailHandler ⟨m, "/recipe/" ++ s, f⟩ db).1.Status = 404) ∧
    ((strconv.Atoi s).2 = none → (∃ row ∈ db.rows, row.id = (strconv.Atoi s).1) →
      (recipeDetailHandler ⟨m, "/recipe/" ++ s, f⟩ db).1.Status = 200) ∧
    (recipeDetailHandler ⟨m, "/recipe/" ++ s, f⟩ db).2 = db := by
  unfold recipeDetailHandler
  simp only [strings.TrimPrefix_append]
  rcases hA : strconv.Atoi s with ⟨id, err⟩
  cases err with
  | some e => simp [http.Error, http.StatusBadRequest]
  | none =>
    simp only [ne_eq, not_true_eq_false, if_false, false_implies, true_and, forall_true_left]
    unfold getRecipeByID
    cases hf : db.rows.find? (fun row => decide (row.id = id)) with
    | none =>
      have hnone := List.find?_eq_none.mp hf
      simp only [http.Error, http.StatusNotFound]
      refine ⟨fun _ => trivial, ?_, trivial⟩
      rintro ⟨row, hrow, hid⟩
      exact absurd (by simpa using hid) (hnone row hrow)
    | some row =>
      have hmem := List.mem_of_find?_eq_some hf
      have hid : row.id = id := by simpa using List.find?_some hf
      refine ⟨fun h => absurd hid (h row hmem), fun _ => rfl, rfl⟩

/-- C1, evaluated on the seeded database: `/recipe/abc` gives 400, `/recipe/999` gives
404, `/recipe/1` gives 200. -/
theorem recipeDetailHandler_status_witness :
    (recipeDetailHandler ⟨"GET", "/recipe/" ++ "abc", .ok []⟩
      (initDB [1700000000, 1700000000] Store.empty)).1.Status = 400 ∧
    (recipeDetailHandler ⟨"GET", "/recipe/" ++ "999", .ok []⟩
      (initDB [1700000000, 1700000000] Store.empty)).1.Status = 404 ∧
    (recipeDetailHandler ⟨"GET", "/recipe/" ++ "1", .ok []⟩
      (initDB [1700000000, 1700000000] Store.empty)).1.Status = 200 :=
  ⟨(recipeDetailHandler_status "GET" "abc" (.ok []) _).1 (by decide),
   (recipeDetailHandler_status "GET" "999" (.ok []) _).2.1 (by decide) (by decide),
   (recipeDetailHandler_status "GET" "1" (.ok []) _).2.2.1 (by decide) (by decide)⟩

/-! ## The delete handler -/

/-- C2: `deleteRecipeHandler` answers every request whose method is not `DELETE` with
status 405, whatever its path, and leaves the database as it was. -/
theorem deleteRecipeHandler_method_not_allowed (r : http.Request) (db : Store)
    (h : r.Method ≠ "DELETE") :
    (deleteRecipeHandler r db).1.Status = 405 ∧ (deleteRecipeHandler r db).2 = db := by
  unfold deleteRecipeHandler
  simp [h, http.Error, http.StatusMethodNotAllowed]

/-- C2 on `PUT /delete-recipe/1` and on `PUT /delete-recipe/abc`, whose id is not an
integer. -/
theorem deleteRecipeHandler_method_not_allowed_witness :
    ("PUT" ≠ "DELETE") ∧
    ((deleteRecipeHandler ⟨"PUT", "/delete-recipe/1", .ok []⟩
      (initDB [1700000000, 1700000000] Store.empty)).1.Status = 405 ∧
    (deleteRecipeHandler ⟨"PUT", "/delete-recipe/1", .ok []⟩
      (initDB [1700000000, 1700000000] Store.empty)).2 =
      initDB [1700000000, 1700000000] Store.empty) ∧
    ((deleteRecipeHandler ⟨"PUT", "/delete-recipe/abc", .ok []⟩
      (initDB [1700000000, 1700000000] Store.empty)).1.Status = 405 ∧
    (deleteRecipeHandler ⟨"PUT", "/delete-recipe/abc", .ok []⟩
      (initDB [1700000000, 1700000000] Store.empty)).2 =
      initDB [1700000000, 1700000000] Store.empty) :=
  ⟨by decide,
   deleteRecipeHandler_method_not_allowed ⟨"PUT", "/delete-recipe/1", .ok []⟩
    (initDB [1700000000, 1700000000] Store.empty) (by decide),
   deleteRecipeHandler_method_not_allowed ⟨"PUT", "/delete-recipe/abc", .ok []⟩
    (initDB [1700000000, 1700000000] Store.empty) (by decide)⟩

/-! ## Integer parse failures of the path -/

theorem recipeDetailHandler_invalid_id (m s : String)
    (f : Except String (List (String × String))) (db : Store)
    (h : (strconv.Atoi s).2 ≠ none) :
    recipeDetailHandler ⟨m, "/recipe/" ++ s, f⟩ db = (invalidIdResponse, db) := by
  unfold recipeDetailHandler
  simp only [strings.TrimPrefix_append]
  rcases hA : strconv.Atoi s with ⟨id, err⟩
  rw [hA] at h
  cases err with
  | none => exact absurd rfl h
  | some e => rfl

theorem editRecipeHandler_invalid_id (m s : String)
    (f : Except String (List (String × String))) (db : Store)
    (h : (strconv.Atoi s).2 ≠ none) :
    editRecipeHandler ⟨m, "/edit-recipe/" ++ s, f⟩ db = (invalidIdResponse, db) := by
  unfold editRecipeHandler
  simp only [strings.TrimPrefix_append]
  rcases hA : strconv.Atoi s with ⟨id, err⟩
  rw [hA] at h
  cases err with
  | none => exact absurd rfl h
  | some e => rfl

theorem deleteRecipeHandler_invalid_id (s : String)
    (f : Except String (List (String × String))) (db : Store)
    (h : (strconv.Atoi s).2 ≠ none) :
    deleteRecipeHandler ⟨"DELETE", "/delete-recipe/" ++ s, f⟩ db = (invalidIdResponse, db) := by
  unfold deleteRecipeHandler
  simp only [strings.TrimPrefix_append]
  rcases hA : strconv.Atoi s with ⟨id, err⟩
  rw [hA] at h
  cases err with
  | none => exact absurd rfl h
  | some e => rfl

/-- C10, as the code has it: when the id segment `s` of the path fails `strconv.Atoi`, the
three handlers answer with status 400 and the fixed body `Invalid recipe ID` and a
newline, whatever the input and the parse error are (`deleteRecipeHandler` for the method
`DELETE`). -/
theorem invalid_id_response (m s : String) (f : Except String (List (String × String)))
    (db : Store) (h : (strconv.Atoi s).2 ≠ none) :
    (recipeDetailHandler ⟨m, "/recipe/" ++ s, f⟩ db).1 =
      ⟨"text/plain; charset=utf-8", 400, "Invalid recipe ID\n"⟩ ∧
    (editRecipeHandler ⟨m, "/edit-recipe/" ++ s, f⟩ db).1 =
      ⟨"text/plain; charset=utf-8", 400, "Invalid recipe ID\n"⟩ ∧
    (deleteRecipeHandler ⟨"DELETE", "/delete-recipe/" ++ s, f⟩ db).1 =
      ⟨"text/plain; charset=utf-8", 400, "Invalid recipe ID\n"⟩ := by
  rw [recipeDetailHandler_invalid_id m s f db h, editRecipeHandler_invalid_id m s f db h,
    deleteRecipeHandler_invalid_id s f db h]
  exact ⟨rfl, rfl, rfl⟩

/-- C10 at the id segment `abc`. -/
theorem invalid_id_response_witness :
    (recipeDetailHandler ⟨"GET", "/recipe/" ++ "abc", .ok []⟩ Store.empty).1 =
      ⟨"text/plain; charset=utf-8", 400, "Invalid recipe ID\n"⟩ ∧
    (editRecipeHandler ⟨"GET", "/edit-recipe/" ++ "abc", .ok []⟩ Store.empty).1 =
      ⟨"text/plain; charset=utf-8", 400, "Invalid recipe ID\n"⟩ ∧
    (deleteRecipeHandler ⟨"DELETE", "/delete-recipe/" ++ "abc", .ok []⟩ Store.empty).1 =
      ⟨"text/plain; charset=utf-8", 400, "Invalid recipe ID\n"⟩ :=
  invalid_id_response "GET" "abc" (.ok []) Store.empty (by decide)

/-- C10 as stated fails on `GET /recipe/abc`: the text of the parse error is
`strconv.Atoi: parsing "abc": invalid syntax` (whatever the Unicode tables say, the input
being ASCII), while the body of the 400 response is `Invalid recipe ID` and a newline. -/
theorem invalid_id_body_is_not_the_parse_error :
    (∀ wide, (strconv.Atoi "abc").2.map (strconv.NumError.Error wide) =
      some "strconv.Atoi: parsing \"abc\": invalid syntax") ∧
    (recipeDetailHandler ⟨"GET", "/recipe/abc", .ok []⟩ Store.empty).1.Status = 400 ∧
    (recipeDetailHandler ⟨"GET", "/recipe/abc", .ok []⟩ Store.empty).1.Body =
      "Invalid recipe ID\n" ∧
    (recipeDetailHandler ⟨"GET", "/recipe/abc", .ok []⟩ Store.empty).1.Body ≠
      "strconv.Atoi: parsing \"abc\": invalid syntax" ∧
    (editRecipeHandler ⟨"GET", "/edit-recipe/abc", .ok []⟩ Store.empty).1.Body ≠
      "strconv.Atoi: parsing \"abc\": invalid syntax" ∧
    (deleteRecipeHandler ⟨"DELETE", "/delete-recipe/abc", .ok []⟩ Store.empty).1.Body ≠
      "strconv.Atoi: parsing \"abc\": invalid syntax" := by
  refine ⟨fun wide => rfl, by decide, by decide, by decide, by decide, by decide⟩

/-! ## Form values -/

/-- What `strconv.ParseInt` returns next to an error: 0 with a syntax error, and with a
range error the bound of `int` on the side of the sign. -/
theorem strconv.ParseInt_value_of_error (s : String) (e : strconv.NumError)
    (h : (strconv.ParseInt s).2 = some e) :
    (strconv.ParseInt s).1 =
      match e.Err with
      | .ErrSyntax => 0
      | .ErrRange =>
        if s.data.head? = some '-' then -9223372036854775808 else 9223372036854775807 := by
  revert h
  unfold strconv.ParseInt
  dsimp only
  by_cases h0 : s = ""
  · rw [if_pos h0]
    intro h
    simp only [Option.some.injEq] at h
    subst h
    rfl
  · rw [if_neg h0]
    rcases strconv.ParseUint _ with ⟨un, err⟩
    rcases err with _ | ⟨fn, num, k⟩
    · dsimp only
      by_cases hneg : s.data.head? = some '-'
      · simp only [hneg, decide_True, Bool.not_true, Bool.false_eq_true, false_and, if_false,
          true_and, if_true]
        split_ifs with h1
        · intro h
          simp only [Option.some.injEq] at h
          subst h
          simp [strconv.rangeError, strconv.intSize]
        · intro h
          simp at h
      · simp only [hneg, decide_False, Bool.not_false, true_and, false_and, if_false]
        split_ifs with h1
        · intro h
          simp only [Option.some.injEq] at h
          subst h
          simp [strconv.rangeError, strconv.intSize]
        · intro h
          simp at h
    · cases k
      · dsimp only
        intro h
        simp only [Option.some.injEq] at h
        subst h
        rfl
      · dsimp only
        by_cases hneg : s.data.head? = some '-'
        · simp only [hneg, decide_True, Bool.not_true, Bool.false_eq_true, false_and, if_false,
            true_and, if_true]
          split_ifs with h1
          · intro h
            simp only [Option.some.injEq] at h
            subst h
            simp [strconv.rangeError, strconv.intSize]
          · intro h
            simp at h
        · simp only [hneg, decide_False, Bool.not_false, true_and, false_and, if_false]
          split_ifs with h1
          · intro h
            simp only [Option.some.injEq] at h
            subst h
            simp [strconv.rangeError, strconv.intSize]
          · intro h
            simp at h

/-- What `strconv.Atoi` returns next to an error: 0 with a syntax error, and with a range
error the bound of `int` on the side of the sign. -/
theorem strconv.Atoi_value_of_error (s : String) (e : strconv.NumError)
    (h : (strconv.Atoi s).2 = some e) :
    (strconv.Atoi s).1 =
      match e.Err with
      | .ErrSyntax => 0
      | .ErrRange =>
        if s.data.head? = some '-' then -9223372036854775808 else 9223372036854775807 := by
  revert h
  unfold strconv.Atoi
  dsimp only
  by_cases hfast : (strconv.intSize = 32 ∧ 0 < s.utf8ByteSize ∧ s.utf8ByteSize < 10) ∨
      (strconv.intSize = 64 ∧ 0 < s.utf8ByteSize ∧ s.utf8ByteSize < 19)
  · rw [if_pos hfast]
    by_cases hs : (s.data.head? = some '-' ∨ s.data.head? = some '+') ∧
        (if s.data.head? = some '-' ∨ s.data.head? = some '+' then s.data.tail
          else s.data).length < 1
    · rw [if_pos hs]
      intro h
      simp only [Option.some.injEq] at h
      subst h
      rfl
    · rw [if_neg hs]
      cases strconv.atoiLoop _ 0 with
      | none =>
        dsimp only
        intro h
        simp only [Option.some.injEq] at h
        subst h
        rfl
      | some n =>
        dsimp only
        intro h
        simp at h
  · rw [if_neg hfast]
    intro h
    rcases hP : strconv.ParseInt s with ⟨i64, err⟩
    rw [hP] at h
    cases err with
    | none => simp at h
    | some nerr =>
      simp only [Option.map_some', Option.some.injEq] at h
      subst h
      have := strconv.ParseInt_value_of_error s nerr (by rw [hP])
      rw [hP] at this
      exact this

/-- What the two form handlers do with a parsed form, whatever its fields hold: the insert
handler passes `newRecipe` to `createRecipe` and answers 200 when the insert succeeds and
500 otherwise; the update handler on an integer id passes `updatedRecipe` to
`updateRecipe` and answers 200. -/
theorem form_handlers_of_parsed_form (form : List (String × String)) (now : time.Time)
    (path s : String) (db : Store) :
    (addRecipeFormHandler now ⟨"POST", path, .ok form⟩ db).2 =
      (createRecipe now (addRecipeFormHandler.newRecipe form) db).2 ∧
    (addRecipeFormHandler now ⟨"POST", path, .ok form⟩ db).1.Status =
      (if (createRecipe now (addRecipeFormHandler.newRecipe form) db).1 = none then 200
       else 500) ∧
    ((strconv.Atoi s).2 = none →
      (editRecipeHandler ⟨"PUT", "/edit-recipe/" ++ s, .ok form⟩ db).2 =
        (updateRecipe (editRecipeHandler.updatedRecipe (strconv.Atoi s).1 form) db).2 ∧
      (editRecipeHandler ⟨"PUT", "/edit-recipe/" ++ s, .ok form⟩ db).1.Status = 200) := by
  refine ⟨?_, ?_, ?_⟩
  · unfold addRecipeFormHandler
    simp only [show ("POST" = "GET") = False from by decide, if_false, if_true]
    rcases createRecipe now (addRecipeFormHandler.newRecipe form) db with ⟨err, db1⟩
    cases err <;> rfl
  · unfold addRecipeFormHandler
    simp only [show ("POST" = "GET") = False from by decide, if_false, if_true]
    rcases createRecipe now (addRecipeFormHandler.newRecipe form) db with ⟨err, db1⟩
    cases err <;> rfl
  · intro hs
    unfold editRecipeHandler
    simp only [strings.TrimPrefix_append]
    rcases hA : strconv.Atoi s with ⟨id, err⟩
    rw [hA] at hs
    simp only at hs
    subst hs
    simp only [show ("PUT" = "GET") = False from by decide, ne_eq, not_true_eq_false, if_false,
      if_true]
    exact ⟨rfl, rfl⟩

/-- C3, as the code has it: when the `prep_time` value of a parsed form fails
`strconv.Atoi` with error `e`, the recipe handed to `createRecipe` (POST `/add-recipe`) and
to `updateRecipe` (PUT `/edit-recipe/` with an integer id) has as `PrepTime` the value
`Atoi` returns next to the error, which is 0 for a syntax error and the `int` bound on the
side of the sign for a range error; the response is 200 (500 when the insert itself
fails), never a rejection. -/
theorem prep_time_of_failed_parse (form : List (String × String)) (e : strconv.NumError)
    (h : (strconv.Atoi (http.FormValue form "prep_time")).2 = some e) :
    (addRecipeFormHandler.newRecipe form).PrepTime =
      (match e.Err with
       | .ErrSyntax => 0
       | .ErrRange =>
         if (http.FormValue form "prep_time").data.head? = some '-'
         then -9223372036854775808 else 9223372036854775807) ∧
    (∀ id, (editRecipeHandler.updatedRecipe id form).PrepTime =
      (addRecipeFormHandler.newRecipe form).PrepTime) ∧
    (∀ now path db,
      (addRecipeFormHandler now ⟨"POST", path, .ok form⟩ db).2 =
        (createRecipe now (addRecipeFormHandler.newRecipe form) db).2 ∧
      (addRecipeFormHandler now ⟨"POST", path, .ok form⟩ db).1.Status =
        (if (createRecipe now (addRecipeFormHandler.newRecipe form) db).1 = none then 200
         else 500)) ∧
    (∀ s db, (strconv.Atoi s).2 = none →
      (editRecipeHandler ⟨"PUT", "/edit-recipe/" ++ s, .ok form⟩ db).2 =
        (updateRecipe (editRecipeHandler.updatedRecipe (strconv.Atoi s).1 form) db).2 ∧
      (editRecipeHandler ⟨"PUT", "/edit-recipe/" ++ s, .ok form⟩ db).1.Status = 200) :=
  ⟨strconv.Atoi_value_of_error _ e h, fun _ => rfl,
   fun now path db =>
    ⟨(form_handlers_of_parsed_form form now path "" db).1,
     (form_handlers_of_parsed_form form now path "" db).2.1⟩,
   fun s db hs => (form_handlers_of_parsed_form form 0 "" s db).2.2 hs⟩

/-- C3 on an empty `prep_time` (syntax error, `PrepTime` 0). -/
theorem prep_time_of_failed_parse_witness :
    (strconv.Atoi (http.FormValue [("name", "Sorbet"), ("prep_time", "")] "prep_time")).2 =
      some ⟨"Atoi", "", .ErrSyntax⟩ ∧
    (addRecipeFormHandler.newRecipe [("name", "Sorbet"), ("prep_time", "")]).PrepTime = 0 :=
  ⟨by decide,
   (prep_time_of_failed_parse [("name", "Sorbet"), ("prep_time", "")] ⟨"Atoi", "", .ErrSyntax⟩
     (by decide)).1⟩

/-- C3 as stated fails for a `prep_time` that is numeric but out of the `int` range:
`Atoi` reports an error, the POST is answered with 200, and the row it inserts has
`prep_time` 9223372036854775807, not 0; likewise for the PUT. -/
theorem prep_time_out_of_range_is_not_zero :
    (strconv.Atoi "99999999999999999999").2 =
      some ⟨"Atoi", "99999999999999999999", .ErrRange⟩ ∧
    (addRecipeFormHandler 1700000000 ⟨"POST", "/add-recipe",
      .ok [("name", "Sorbet"), ("ingredients", "fruit\nsugar"),
           ("instructions", "blend\nfreeze"), ("prep_time", "99999999999999999999")]⟩
      Store.empty).1.Status = 200 ∧
    (addRecipeFormHandler 1700000000 ⟨"POST", "/add-recipe",
      .ok [("name", "Sorbet"), ("ingredients", "fruit\nsugar"),
           ("instructions", "blend\nfreeze"), ("prep_time", "99999999999999999999")]⟩
      Store.empty).2.rows =
      [⟨1, "Sorbet", "fruit\nsugar", "blend\nfreeze", 9223372036854775807, 1700000000⟩] ∧
    (editRecipeHandler.updatedRecipe 1
      [("name", "Sorbet"), ("prep_time", "-99999999999999999999")]).PrepTime =
      -9223372036854775808 := by
  refine ⟨by decide, by decide, by decide, by decide⟩

/-! ## Required fields -/

/-- Go `r.FormValue(key)` is the empty string for a key the form lacks. -/
theorem http.FormValue_of_absent (form : List (String × String)) (key : String)
    (h : ∀ kv ∈ form, kv.1 ≠ key) : http.FormValue form key = "" := by
  unfold http.FormValue
  have : form.find? (fun kv => decide (kv.1 = key)) = none := by
    rw [List.find?_eq_none]
    intro kv hmem
    simpa using h kv hmem
  rw [this]

/-- Go `r.FormValue(key)` is the first value the form has for the key, empty or not. -/
theorem http.FormValue_of_first (pre rest : List (String × String)) (key v : String)
    (h : ∀ kv ∈ pre, kv.1 ≠ key) : http.FormValue (pre ++ (key, v) :: rest) key = v := by
  unfold http.FormValue
  have hpre : pre.find? (fun kv => decide (kv.1 = key)) = none := by
    rw [List.find?_eq_none]
    intro kv hmem
    simpa using h kv hmem
  rw [List.find?_append, hpre]
  simp

/-- C4, as the code has it: the handlers do not check the required fields.  A POST to
`/add-recipe` is answered with 400 exactly when the form cannot be parsed, a PUT to
`/edit-recipe/` exactly when the id segment is not an integer or the form cannot be
parsed, and the database is then unchanged.  A parsed form goes to `createRecipe` or
`updateRecipe` as it is: name, ingredients and instructions are the form values of
`name`, `ingredients` and `instructions`, a form value being the first value the form has
for the key, empty or not, and the empty string when the form lacks the key.  A
successful insert appends the row with exactly these fields and is answered with 200; an
update writes exactly these fields into the rows of the id and is answered with 200. -/
theorem required_fields_not_checked (now : time.Time) (path s : String)
    (pf : Except String (List (String × String))) (db : Store) :
    ((addRecipeFormHandler now ⟨"POST", path, pf⟩ db).1.Status = 400 ↔
      ∃ err, pf = .error err) ∧
    ((addRecipeFormHandler now ⟨"POST", path, pf⟩ db).1.Status = 400 →
      (addRecipeFormHandler now ⟨"POST", path, pf⟩ db).2 = db) ∧
    ((editRecipeHandler ⟨"PUT", "/edit-recipe/" ++ s, pf⟩ db).1.Status = 400 ↔
      ((strconv.Atoi s).2 ≠ none ∨ ∃ err, pf = .error err)) ∧
    ((editRecipeHandler ⟨"PUT", "/edit-recipe/" ++ s, pf⟩ db).1.Status = 400 →
      (editRecipeHandler ⟨"PUT", "/edit-recipe/" ++ s, pf⟩ db).2 = db) ∧
    (∀ form, pf = .ok form →
      (addRecipeFormHandler now ⟨"POST", path, pf⟩ db).2 =
        (createRecipe now (addRecipeFormHandler.newRecipe form) db).2 ∧
      (addRecipeFormHandler now ⟨"POST", path, pf⟩ db).1.Status =
        (if (createRecipe now (addRecipeFormHandler.newRecipe form) db).1 = none then 200
         else 500) ∧
      ((strconv.Atoi s).2 = none →
        (editRecipeHandler ⟨"PUT", "/edit-recipe/" ++ s, pf⟩ db).2 =
          (updateRecipe (editRecipeHandler.updatedRecipe (strconv.Atoi s).1 form) db).2 ∧
        (editRecipeHandler ⟨"PUT", "/edit-recipe/" ++ s, pf⟩ db).1.Status = 200) ∧
      ((∀ kv ∈ form, kv.1 ≠ "name") →
        (addRecipeFormHandler.newRecipe form).Name = "" ∧
        (editRecipeHandler.updatedRecipe (strconv.Atoi s).1 form).Name = "") ∧
      addRecipeFormHandler.newRecipe form =
        ⟨0, http.FormValue form "name", http.FormValue form "ingredients",
          http.FormValue form "instructions",
          (strconv.Atoi (http.FormValue form "prep_time")).1, time.zero⟩ ∧
      editRecipeHandler.updatedRecipe (strconv.Atoi s).1 form =
        ⟨(strconv.Atoi s).1, http.FormValue form "name", http.FormValue form "ingredients",
          http.FormValue form "instructions",
          (strconv.Atoi (http.FormValue form "prep_time")).1, time.zero⟩ ∧
      (∀ v, newRowid db = some v →
        (addRecipeFormHandler now ⟨"POST", path, pf⟩ db).2 =
          ⟨db.rows ++ [⟨v, http.FormValue form "name", http.FormValue form "ingredients",
            http.FormValue form "instructions",
            (strconv.Atoi (http.FormValue form "prep_time")).1, now⟩], v⟩ ∧
        (addRecipeFormHandler now ⟨"POST", path, pf⟩ db).1.Status = 200) ∧
      ((strconv.Atoi s).2 = none →
        (editRecipeHandler ⟨"PUT", "/edit-recipe/" ++ s, pf⟩ db).2 =
          ⟨db.rows.map (fun row =>
            if row.id = (strconv.Atoi s).1 then
              ⟨row.id, http.FormValue form "name", http.FormValue form "ingredients",
                http.FormValue form "instructions",
                (strconv.Atoi (http.FormValue form "prep_time")).1, row.created_at⟩
            else row), db.seq⟩) ∧
      (∀ key, (∀ kv ∈ form, kv.1 ≠ key) → http.FormValue form key = "") ∧
      (∀ pre rest key v, form = pre ++ (key, v) :: rest → (∀ kv ∈ pre, kv.1 ≠ key) →
        http.FormValue form key = v)) := by
  have hform := fun form => form_handlers_of_parsed_form form now path s db
  have hnoname : ∀ form : List (String × String), (∀ kv ∈ form, kv.1 ≠ "name") →
      http.FormValue form "name" = "" := by
    intro form hkv
    unfold http.FormValue
    have : form.find? (fun kv => decide (kv.1 = "name")) = none := by
      rw [List.find?_eq_none]
      intro kv hmem
      simpa using hkv kv hmem
    rw [this]
  cases pf with
  | error err =>
    have hadd : addRecipeFormHandler now ⟨"POST", path, .error err⟩ db =
        (http.Error (http.ResponseWriter.new.SetContentType "text/html") err 400, db) := by
      unfold addRecipeFormHandler
      simp only [show ("POST" = "GET") = False from by decide, if_false, if_true]
      rfl
    have hedit : (editRecipeHandler ⟨"PUT", "/edit-recipe/" ++ s, .error err⟩ db).1.Status = 400 ∧
        (editRecipeHandler ⟨"PUT", "/edit-recipe/" ++ s, .error err⟩ db).2 = db := by
      unfold editRecipeHandler
      simp only [strings.TrimPrefix_append]
      rcases strconv.Atoi s with ⟨id, e⟩
      cases e with
      | some e => simp [http.Error, http.StatusBadRequest]
      | none =>
        simp only [show ("PUT" = "GET") = False from by decide, ne_eq, not_true_eq_false,
          if_false, if_true]
        exact ⟨rfl, trivial⟩
    refine ⟨?_, ?_, ?_, ?_, ?_⟩
    · rw [hadd]
      exact ⟨fun _ => ⟨err, rfl⟩, fun _ => rfl⟩
    · rw [hadd]
      exact fun _ => rfl
    · exact ⟨fun _ => Or.inr ⟨err, rfl⟩, fun _ => hedit.1⟩
    · exact fun _ => hedit.2
    · intro form hpf
      cases hpf
  | ok form =>
    obtain ⟨h1, h2, h3⟩ := hform form
    refine ⟨?_, ?_, ?_, ?_, ?_⟩
    · rw [h2]
      constructor
      · intro h
        split_ifs at h <;> omega
      · rintro ⟨err, herr⟩
        cases herr
    · rw [h2]
      intro h
      split_ifs at h <;> omega
    · constructor
      · intro h
        by_contra hcon
        push_neg at hcon
        have := (h3 hcon.1).2
        omega
      · rintro (hs | ⟨err, herr⟩)
        · rw [editRecipeHandler_invalid_id "PUT" s (.ok form) db hs]
          rfl
        · cases herr
    · intro h
      by_cases hs : (strconv.Atoi s).2 = none
      · have := (h3 hs).2
        omega
      · rw [editRecipeHandler_invalid_id "PUT" s (.ok form) db hs]
    · intro form2 hpf
      cases hpf
      refine ⟨h1, h2, h3, fun hkv => ⟨hnoname form hkv, hnoname form hkv⟩, rfl, rfl, ?_, ?_,
        fun key hkey => http.FormValue_of_absent form key hkey, ?_⟩
      · intro v hv
        have hc : createRecipe now (addRecipeFormHandler.newRecipe form) db =
            (none, ⟨db.rows ++ [⟨v, http.FormValue form "name",
              http.FormValue form "ingredients", http.FormValue form "instructions",
              (strconv.Atoi (http.FormValue form "prep_time")).1, now⟩], v⟩) := by
          unfold createRecipe
          rw [hv]
          rfl
        rw [h1, h2, hc]
        exact ⟨rfl, rfl⟩
      · intro hs
        rw [(h3 hs).1]
        rfl
      · intro pre rest key v hf hpre
        rw [hf]
        exact http.FormValue_of_first pre rest key v hpre

/-- C4 on a POST whose form has an empty `ingredients` value and no `instructions`: the
row is inserted with both fields empty and the answer is 200. -/
theorem required_fields_not_checked_witness :
    (addRecipeFormHandler 1700000000 ⟨"POST", "/add-recipe",
      .ok [("name", "Sorbet"), ("ingredients", ""), ("prep_time", "20")]⟩ Store.empty).2 =
      ⟨[⟨1, "Sorbet", "", "", 20, 1700000000⟩], 1⟩ ∧
    (addRecipeFormHandler 1700000000 ⟨"POST", "/add-recipe",
      .ok [("name", "Sorbet"), ("ingredients", ""), ("prep_time", "20")]⟩
      Store.empty).1.Status = 200 :=
  (required_fields_not_checked 1700000000 "/add-recipe" "1"
    (.ok [("name", "Sorbet"), ("ingredients", ""), ("prep_time", "20")])
    Store.empty).2.2.2.2 _ rfl |>.2.2.2.2.2.2.1 1 (by decide)

/-- C4 as stated fails on a POST to `/add-recipe` whose form has no `name`: the answer is
200 and a row with the empty name is inserted; a PUT to `/edit-recipe/1` with an empty
form is answered with 200 and empties the fields of row 1. -/
theorem missing_name_is_accepted :
    (addRecipeFormHandler 1700000000 ⟨"POST", "/add-recipe",
      .ok [("ingredients", "fruit\nsugar"), ("instructions", "blend\nfreeze"),
           ("prep_time", "20")]⟩ Store.empty).1.Status = 200 ∧
    (addRecipeFormHandler 1700000000 ⟨"POST", "/add-recipe",
      .ok [("ingredients", "fruit\nsugar"), ("instructions", "blend\nfreeze"),
           ("prep_time", "20")]⟩ Store.empty).2.rows =
      [⟨1, "", "fruit\nsugar", "blend\nfreeze", 20, 1700000000⟩] ∧
    (editRecipeHandler ⟨"PUT", "/edit-recipe/1", .ok []⟩
      (initDB [1700000000, 1700000000] Store.empty)).1.Status = 200 ∧
    ((editRecipeHandler ⟨"PUT", "/edit-recipe/1", .ok []⟩
      (initDB [1700000000, 1700000000] Store.empty)).2.rows.map fun row => (row.id, row.name)) =
      [(1, ""), (2, "Chocolate Fudge")] := by
  refine ⟨by decide, by decide, by decide, by decide⟩

/-! ## The repository functions -/

theorem orderedInsert_of_forall_rel {α : Type} (r : α → α → Prop) [DecidableRel r] (a : α)
    (l : List α) (h : ∀ b ∈ l, r a b) : l.orderedInsert r a = a :: l := by
  cases l with
  | nil => rfl
  | cons b t => exact List.orderedInsert_of_le r t (h b (List.mem_cons_self b t))

/-- Inserting into a sorted list and then filtering is filtering and then inserting. -/
theorem filter_orderedInsert {α : Type} (r : α → α → Prop) [DecidableRel r] [IsTrans α r]
    (p : α → Bool) (a : α) :
    ∀ l : List α, l.Sorted r →
      (l.orderedInsert r a).filter p =
        if p a = true then (l.filter p).orderedInsert r a else l.filter p
  | [], _ => by
    by_cases hp : p a = true <;> simp [hp]
  | b :: t, hs => by
    have ht : t.Sorted r := List.Sorted.of_cons hs
    have ih := filter_orderedInsert r p a t ht
    by_cases hab : r a b
    · rw [List.orderedInsert_of_le r t hab]
      by_cases hp : p a = true
      · rw [if_pos hp, List.filter_cons_of_pos hp]
        symm
        apply orderedInsert_of_forall_rel
        intro c hc
        have hc' : c ∈ b :: t := List.mem_of_mem_filter hc
        rcases List.mem_cons.mp hc' with rfl | hct
        · exact hab
        · exact IsTrans.trans a b c hab (List.rel_of_sorted_cons hs c hct)
      · rw [if_neg hp, List.filter_cons_of_neg hp]
    · have hins : (b :: t).orderedInsert r a = b :: t.orderedInsert r a := by
        simp [List.orderedInsert, hab]
      rw [hins]
      by_cases hpb : p b = true
      · rw [List.filter_cons_of_pos hpb, List.filter_cons_of_pos hpb, ih]
        by_cases hp : p a = true
        · simp [hp, List.orderedInsert, hab]
        · simp [hp]
      · rw [List.filter_cons_of_neg hpb, List.filter_cons_of_neg hpb, ih]

/-- A stable sort commutes with filtering. -/
theorem filter_insertionSort {α : Type} (r : α → α → Prop) [DecidableRel r] [IsTrans α r]
    [IsTotal α r] (p : α → Bool) :
    ∀ l : List α, (l.insertionSort r).filter p = (l.filter p).insertionSort r
  | [] => rfl
  | a :: l => by
    rw [List.insertionSort, filter_orderedInsert r p a _ (List.sorted_insertionSort r l),
      filter_insertionSort r p l]
    by_cases hp : p a = true
    · rw [if_pos hp, List.filter_cons_of_pos hp, List.insertionSort]
    · rw [if_neg hp, List.filter_cons_of_neg hp]

theorem filter_eq_self_of_forall {α : Type} (p : α → Bool) (l : List α)
    (h : ∀ a ∈ l, p a = true) : l.filter p = l :=
  List.filter_eq_self.mpr h

/-- What `getAllRecipes` returns after rows were filtered out of the table. -/
theorem getAllRecipes_filter (p : Int → Bool) (db : Store) (seq : Int) :
    (getAllRecipes ⟨db.rows.filter fun row => p row.id, seq⟩).1 =
      (getAllRecipes db).1.filter fun r => p r.ID := by
  unfold getAllRecipes
  simp only [List.filter_map]
  rw [← filter_insertionSort]
  rfl

/-- C5: `updateRecipe` returns no error; each row whose id is `r.ID` gets the name, the
ingredients, the instructions and the prep time of `r` and keeps its id and its
`created_at`; every other row, the order of the rows and the `sqlite_sequence` entry are
unchanged; when no row has the id `r.ID` the database is unchanged. -/
theorem updateRecipe_frame (r : Recipe) (db : Store) :
    (updateRecipe r db).1 = none ∧
    (updateRecipe r db).2.seq = db.seq ∧
    List.Forall₂
      (fun old new : Row =>
        (old.id = r.ID →
          new = ⟨old.id, r.Name, r.Ingredients, r.Instructions, r.PrepTime, old.created_at⟩) ∧
        (old.id ≠ r.ID → new = old))
      db.rows (updateRecipe r db).2.rows ∧
    ((∀ row ∈ db.rows, row.id ≠ r.ID) → (updateRecipe r db).2 = db) := by
  refine ⟨rfl, rfl, ?_, ?_⟩
  · unfold updateRecipe
    simp only
    rw [List.forall₂_map_right_iff, List.forall₂_same]
    intro row _
    by_cases h : row.id = r.ID
    · simp [h]
    · simp [h]
  · intro h
    unfold updateRecipe
    simp only
    have : db.rows.map (fun row =>
        if row.id = r.ID then
          { row with name := r.Name, ingredients := r.Ingredients,
                     instructions := r.Instructions, prep_time := r.PrepTime }
        else row) = db.rows := by
      conv_rhs => rw [← List.map_id db.rows]
      apply List.map_congr_left
      intro row hrow
      simp [h row hrow]
    rw [this]

/-- C5 on the seeded database: updating row 1 rewrites its four fields, and updating the
absent id 7 changes nothing. -/
theorem updateRecipe_frame_witness :
    (updateRecipe ⟨1, "Sorbet", "fruit", "blend", 20, time.zero⟩
      (initDB [1700000000, 1700000001] Store.empty)).2.rows.head? =
      some ⟨1, "Sorbet", "fruit", "blend", 20, 1700000000⟩ ∧
    (updateRecipe ⟨7, "Sorbet", "fruit", "blend", 20, time.zero⟩
      (initDB [1700000000, 1700000001] Store.empty)).2 =
      initDB [1700000000, 1700000001] Store.empty :=
  ⟨by decide,
   (updateRecipe_frame ⟨7, "Sorbet", "fruit", "blend", 20, time.zero⟩
     (initDB [1700000000, 1700000001] Store.empty)).2.2.2 (by decide)⟩

/-- C6: `deleteRecipe` returns no error, and `getAllRecipes` afterwards returns, without
error, what it returned before with the recipes of that id left out: no recipe has the id,
every other one is there unchanged and in the same order; when no row has the id the
result of `getAllRecipes` is the same as before. -/
theorem deleteRecipe_getAllRecipes (id : Int) (db : Store) :
    (deleteRecipe id db).1 = none ∧
    (getAllRecipes (deleteRecipe id db).2).2 = none ∧
    (getAllRecipes (deleteRecipe id db).2).1 =
      (getAllRecipes db).1.filter (fun r => r.ID ≠ id) ∧
    (∀ r ∈ (getAllRecipes (deleteRecipe id db).2).1, r.ID ≠ id) ∧
    ((∀ row ∈ db.rows, row.id ≠ id) →
      getAllRecipes (deleteRecipe id db).2 = getAllRecipes db) := by
  have hfilter : (getAllRecipes (deleteRecipe id db).2).1 =
      (getAllRecipes db).1.filter (fun r => r.ID ≠ id) :=
    getAllRecipes_filter (fun i => decide (i ≠ id)) db db.seq
  refine ⟨rfl, rfl, hfilter, ?_, ?_⟩
  · intro r hr
    rw [hfilter] at hr
    simpa using (List.mem_filter.mp hr).2
  · intro h
    have : (deleteRecipe id db).2 = db := by
      unfold deleteRecipe
      simp only
      rw [filter_eq_self_of_forall _ _ (fun row hrow => by simpa using h row hrow)]
    rw [this]

/-- C6 on the seeded database: deleting id 1 leaves the other recipe, deleting the absent
id 7 leaves both. -/
theorem deleteRecipe_getAllRecipes_witness :
    ((getAllRecipes (deleteRecipe 1 (initDB [1700000000, 1700000001] Store.empty)).2).1.map
      fun r => r.ID) = [2] ∧
    getAllRecipes (deleteRecipe 7 (initDB [1700000000, 1700000001] Store.empty)).2 =
      getAllRecipes (initDB [1700000000, 1700000001] Store.empty) :=
  ⟨by decide,
   (deleteRecipe_getAllRecipes 7 (initDB [1700000000, 1700000001] Store.empty)).2.2.2.2
     (by decide)⟩

/-- The rows `getAllRecipes` scans are sorted by `created_at`, newest first. -/
theorem getAllRecipes_sorted (db : Store) :
    (getAllRecipes db).1.Pairwise (fun a b => b.CreatedAt ≤ a.CreatedAt) := by
  unfold getAllRecipes
  simp only
  rw [List.pairwise_map]
  exact List.sorted_insertionSort createdAtDesc db.rows

/-- Of two positions of the result of `getAllRecipes`, the one holding the strictly later
`CreatedAt` is the smaller one. -/
theorem getAllRecipes_index_order (db : Store) (i j : Nat)
    (hi : i < (getAllRecipes db).1.length) (hj : j < (getAllRecipes db).1.length)
    (h : ((getAllRecipes db).1.get ⟨i, hi⟩).CreatedAt <
      ((getAllRecipes db).1.get ⟨j, hj⟩).CreatedAt) :
    j < i := by
  by_contra hcon
  rcases Nat.lt_or_eq_of_le (Nat.le_of_not_lt hcon) with hlt | heq
  · have := List.pairwise_iff_get.mp (getAllRecipes_sorted db) ⟨i, hi⟩ ⟨j, hj⟩ hlt
    exact absurd h (not_lt.mpr this)
  · subst heq
    exact lt_irrefl _ h

/-- In a list sorted by `CreatedAt`, newest first, a recipe with a strictly later
`CreatedAt` stands before one with an earlier `CreatedAt`. -/
theorem later_before_of_sorted : ∀ (l : List Recipe) (a b : Recipe),
    l.Pairwise (fun x y => y.CreatedAt ≤ x.CreatedAt) → a ∈ l → b ∈ l →
    a.CreatedAt < b.CreatedAt → ∃ l1 l2 l3, l = l1 ++ b :: (l2 ++ a :: l3)
  | [], _, _, _, ha, _, _ => by cases ha
  | x :: t, a, b, hp, ha, hb, hlt => by
    have hx : ∀ y ∈ t, y.CreatedAt ≤ x.CreatedAt := (List.pairwise_cons.mp hp).1
    have ht := (List.pairwise_cons.mp hp).2
    rcases List.mem_cons.mp ha with rfl | hat
    · rcases List.mem_cons.mp hb with rfl | hbt
      · exact absurd hlt (lt_irrefl _)
      · exact absurd hlt (not_lt.mpr (hx b hbt))
    · rcases List.mem_cons.mp hb with rfl | hbt
      · obtain ⟨l2, l3, h23⟩ := List.append_of_mem hat
        exact ⟨[], l2, l3, by rw [h23]; rfl⟩
      · obtain ⟨l1, l2, l3, h⟩ := later_before_of_sorted t a b ht hat hbt hlt
        exact ⟨x :: l1, l2, l3, by rw [h]; rfl⟩

/-- The recipes `getAllRecipes` returns are the stored rows, each one once. -/
theorem getAllRecipes_perm (db : Store) :
    (getAllRecipes db).1.Perm (db.rows.map Row.Scan) := by
  unfold getAllRecipes
  exact (List.perm_insertionSort createdAtDesc db.rows).map Row.Scan

/-- C8, as the code has it: `getAllRecipes` returns every stored row once, and of two
stored rows `A` and `B` the one whose `created_at` is strictly later (`B`, inserted in a
later clock second than `A`) stands before the other: the result is some recipes, then
`B`, then some recipes, then `A`, then the rest, and wherever `A` and `B` occur in the
result, `B` occurs at the smaller position. -/
theorem getAllRecipes_later_second_first (db : Store) (A B : Row)
    (hA : A ∈ db.rows) (hB : B ∈ db.rows) (h : A.created_at < B.created_at) :
    (getAllRecipes db).1.Perm (db.rows.map Row.Scan) ∧
    (∃ l1 l2 l3, (getAllRecipes db).1 = l1 ++ B.Scan :: (l2 ++ A.Scan :: l3)) ∧
    (∀ (i j : Nat) (hi : i < (getAllRecipes db).1.length)
      (hj : j < (getAllRecipes db).1.length),
      (getAllRecipes db).1.get ⟨i, hi⟩ = A.Scan → (getAllRecipes db).1.get ⟨j, hj⟩ = B.Scan →
      j < i) := by
  have hperm := getAllRecipes_perm db
  refine ⟨hperm, ?_, ?_⟩
  · exact later_before_of_sorted _ A.Scan B.Scan (getAllRecipes_sorted db)
      (hperm.mem_iff.mpr (List.mem_map_of_mem Row.Scan hA))
      (hperm.mem_iff.mpr (List.mem_map_of_mem Row.Scan hB)) h
  · intro i j hi hj hiA hjB
    apply getAllRecipes_index_order db i j hi hj
    rw [hiA, hjB]
    exact h

/-- C8 on a table of three rows, the first two inserted in one second and the third in
the next: the third row is returned first, and before the first row. -/
theorem getAllRecipes_later_second_first_witness :
    ((getAllRecipes ⟨[⟨1, "a", "x", "y", 1, 1700000000⟩, ⟨2, "b", "x", "y", 1, 1700000000⟩,
        ⟨3, "c", "x", "y", 1, 1700000001⟩], 3⟩).1.map fun r => r.Name) = ["c", "a", "b"] ∧
    (1700000000 : time.Time) < 1700000001 ∧
    ∃ l1 l2 l3,
      (getAllRecipes ⟨[⟨1, "a", "x", "y", 1, 1700000000⟩, ⟨2, "b", "x", "y", 1, 1700000000⟩,
        ⟨3, "c", "x", "y", 1, 1700000001⟩], 3⟩).1 =
      l1 ++ Row.Scan ⟨3, "c", "x", "y", 1, 1700000001⟩ ::
        (l2 ++ Row.Scan ⟨1, "a", "x", "y", 1, 1700000000⟩ :: l3) :=
  ⟨by decide, by decide,
   (getAllRecipes_later_second_first
     ⟨[⟨1, "a", "x", "y", 1, 1700000000⟩, ⟨2, "b", "x", "y", 1, 1700000000⟩,
        ⟨3, "c", "x", "y", 1, 1700000001⟩], 3⟩
     ⟨1, "a", "x", "y", 1, 1700000000⟩ ⟨3, "c", "x", "y", 1, 1700000001⟩
     (by decide) (by decide) (by decide)).2.1⟩

/-- C8 as stated fails for the two samples `insertSampleData` inserts within one clock
second: `Vanilla Bean` is inserted before `Chocolate Fudge` and both get the same
`created_at`, yet `getAllRecipes` returns `Vanilla Bean` first. -/
theorem same_second_inserts_keep_insertion_order :
    ((initDB [1700000000, 1700000000] Store.empty).rows.map
      fun row => (row.id, row.name, row.created_at)) =
      [(1, "Vanilla Bean", 1700000000), (2, "Chocolate Fudge", 1700000000)] ∧
    ((getAllRecipes (initDB [1700000000, 1700000000] Store.empty)).1.map fun r => r.Name) =
      ["Vanilla Bean", "Chocolate Fudge"] := by
  refine ⟨by decide, by decide⟩

/-! ## Inserting -/

theorem lastRowid_ge : ∀ (rows : List Row) (row : Row), row ∈ rows →
    ∃ m, lastRowid rows = some m ∧ row.id ≤ m
  | [], _, h => by cases h
  | r :: rows, row, h => by
    unfold lastRowid
    cases hl : lastRowid rows with
    | none =>
      rcases List.mem_cons.mp h with rfl | hmem
      · exact ⟨_, rfl, le_refl _⟩
      · obtain ⟨m, hm, _⟩ := lastRowid_ge rows row hmem
        rw [hl] at hm
        cases hm
    | some m =>
      refine ⟨max r.id m, rfl, ?_⟩
      rcases List.mem_cons.mp h with rfl | hmem
      · exact le_max_left _ _
      · obtain ⟨m', hm', hle⟩ := lastRowid_ge rows row hmem
        rw [hl] at hm'
        cases hm'
        exact le_trans hle (le_max_right _ _)

/-- The rowid an insert picks is larger than the `sqlite_sequence` entry and than every
rowid in the table. -/
theorem newRowid_gt (db : Store) (v : Int) (h : newRowid db = some v) :
    db.seq < v ∧ ∀ row ∈ db.rows, row.id < v := by
  unfold newRowid at h
  cases hl : lastRowid db.rows with
  | none =>
    rw [hl] at h
    simp only at h
    split_ifs at h
    all_goals
      simp only [Option.some.injEq] at h
      subst h
      refine ⟨by omega, fun row hrow => ?_⟩
      obtain ⟨m, hm, _⟩ := lastRowid_ge db.rows row hrow
      rw [hl] at hm
      cases hm
  | some last =>
    rw [hl] at h
    simp only at h
    by_cases hmax : last ≥ MAX_ROWID
    · simp [hmax] at h
    · simp only [hmax, if_false] at h
      split_ifs at h
      all_goals
        simp only [Option.some.injEq] at h
        subst h
        refine ⟨by omega, fun row hrow => ?_⟩
        obtain ⟨m, hm, hle⟩ := lastRowid_ge db.rows row hrow
        rw [hl] at hm
        cases hm
        omega

/-- A `createRecipe` without error appended one row with the rowid of `newRowid`. -/
theorem createRecipe_of_success (now : time.Time) (r : Recipe) (db : Store)
    (h : (createRecipe now r db).1 = none) :
    ∃ v, newRowid db = some v ∧
      (createRecipe now r db).2 =
        ⟨db.rows ++ [⟨v, r.Name, r.Ingredients, r.Instructions, r.PrepTime, now⟩], v⟩ := by
  unfold createRecipe at h ⊢
  cases hn : newRowid db with
  | none => rw [hn] at h; simp at h
  | some v => exact ⟨v, rfl, rfl⟩

/-- What the database looks like after `createRecipe`, with or without error. -/
theorem createRecipe_store (now : time.Time) (r : Recipe) (db : Store) :
    (newRowid db = none ∧ (createRecipe now r db).2 = db) ∨
    ∃ v, newRowid db = some v ∧
      (createRecipe now r db).2 =
        ⟨db.rows ++ [⟨v, r.Name, r.Ingredients, r.Instructions, r.PrepTime, now⟩], v⟩ := by
  unfold createRecipe
  cases hn : newRowid db with
  | none => exact Or.inl ⟨rfl, rfl⟩
  | some v => exact Or.inr ⟨v, rfl, rfl⟩

/-- The three repository functions keep the rows in rowid order: an insert appends a row
with a larger rowid, an update keeps every rowid, a delete only removes rows. -/
theorem apply_ascending (op : Op) (db : Store) (h : db.Ascending) :
    (op.apply db).Ascending := by
  unfold Store.Ascending at h ⊢
  cases op with
  | create now recipe =>
    rcases createRecipe_store now recipe db with ⟨_, hdb⟩ | ⟨v, hn, hdb⟩
    · show (createRecipe now recipe db).2.rows.Pairwise _
      rw [hdb]
      exact h
    · show (createRecipe now recipe db).2.rows.Pairwise _
      rw [hdb]
      refine List.pairwise_append.mpr ⟨h, List.pairwise_singleton _ _, ?_⟩
      intro a ha b hb
      simp only [List.mem_singleton] at hb
      subst hb
      exact (newRowid_gt db v hn).2 a ha
  | update recipe =>
    show (updateRecipe recipe db).2.rows.Pairwise _
    simp only [updateRecipe, List.pairwise_map]
    refine h.imp ?_
    intro a b hab
    have hid : ∀ row : Row, (if row.id = recipe.ID then
        { row with name := recipe.Name, ingredients := recipe.Ingredients,
                   instructions := recipe.Instructions, prep_time := recipe.PrepTime }
        else row).id = row.id := by
      intro row
      split_ifs <;> rfl
    rw [hid a, hid b]
    exact hab
  | delete id =>
    show (deleteRecipe id db).2.rows.Pairwise _
    simp only [deleteRecipe]
    exact h.filter _

/-- Along a sequence of calls the `sqlite_sequence` entry stays at or above every rowid of
the table and every rowid given as `ids`, and at or above the rowids the calls assign. -/
theorem run_seq_bound : ∀ (ops : List Op) (db : Store) (ids : List Int),
    db.WF → (∀ i ∈ ids, i ≤ db.seq) →
    (run ops db).WF ∧ ∀ i ∈ ids ++ assignedIds ops db, i ≤ (run ops db).seq
  | [], db, ids, hwf, hids => by
    refine ⟨hwf, ?_⟩
    intro i hi
    simp only [assignedIds, List.append_nil] at hi
    exact hids i hi
  | op :: ops, db, ids, hwf, hids => by
    cases op with
    | create now recipe =>
      rcases createRecipe_store now recipe db with ⟨hn, hdb⟩ | ⟨v, hn, hdb⟩
      · have ih := run_seq_bound ops db ids hwf hids
        have hrun : run (Op.create now recipe :: ops) db = run ops db := by
          show run ops (createRecipe now recipe db).2 = run ops db
          rw [hdb]
        have hass : assignedIds (Op.create now recipe :: ops) db = assignedIds ops db := by
          simp only [assignedIds, hn, hdb]
        rw [hrun, hass]
        exact ih
      · obtain ⟨hseq, hrows⟩ := newRowid_gt db v hn
        have hwf' : (createRecipe now recipe db).2.WF := by
          rw [hdb]
          refine ⟨by have := hwf.1; show (0 : Int) ≤ v; omega, ?_⟩
          intro row hrow
          rcases List.mem_append.mp hrow with hold | hnew
          · exact le_of_lt (hrows row hold)
          · simp only [List.mem_singleton] at hnew
            subst hnew
            exact le_refl _
        have hids' : ∀ i ∈ ids ++ [v], i ≤ (createRecipe now recipe db).2.seq := by
          rw [hdb]
          intro i hi
          rcases List.mem_append.mp hi with hold | hnew
          · have := hids i hold
            show i ≤ v
            omega
          · simp only [List.mem_singleton] at hnew
            subst hnew
            exact le_refl _
        have ih := run_seq_bound ops (createRecipe now recipe db).2 (ids ++ [v]) hwf' hids'
        have hass : assignedIds (Op.create now recipe :: ops) db =
            v :: assignedIds ops (createRecipe now recipe db).2 := by
          simp only [assignedIds, hn]
        have hrun : run (Op.create now recipe :: ops) db =
            run ops (createRecipe now recipe db).2 := rfl
        rw [hrun, hass]
        refine ⟨ih.1, ?_⟩
        intro i hi
        apply ih.2
        simpa using hi
    | update recipe =>
      have hwf' : (updateRecipe recipe db).2.WF := by
        refine ⟨hwf.1, ?_⟩
        intro row hrow
        simp only [updateRecipe, List.mem_map] at hrow
        obtain ⟨old, hold, heq⟩ := hrow
        have hid : row.id = old.id := by
          rw [← heq]
          split_ifs <;> rfl
        rw [hid]
        exact hwf.2 old hold
      exact run_seq_bound ops (updateRecipe recipe db).2 ids hwf' hids
    | delete id =>
      have hwf' : (deleteRecipe id db).2.WF := by
        refine ⟨hwf.1, ?_⟩
        intro row hrow
        simp only [deleteRecipe] at hrow
        exact hwf.2 row (List.mem_of_mem_filter hrow)
      exact run_seq_bound ops (deleteRecipe id db).2 ids hwf' hids

/-- C7: take a database `db0` that satisfies the `AUTOINCREMENT` invariant (a fresh one
does) and any sequence `ops` of repository calls on it.  A `createRecipe(r)` that then
succeeds appends exactly one row: its name, ingredients, instructions and prep time are
those of `r`, its `created_at` is the database clock (not `r.CreatedAt`), its id (not
`r.ID`) is positive and differs from the id of every row now stored, of every row `db0`
had, and of every row inserted during `ops`, deleted or not.  `getAllRecipes` returns the
recipes it returned before, in their order, and the new one. -/
theorem createRecipe_assigns_fresh_id (db0 : Store) (ops : List Op) (now : time.Time)
    (r : Recipe) (hwf : db0.WF) (h : (createRecipe now r (run ops db0)).1 = none) :
    ∃ row : Row,
      (createRecipe now r (run ops db0)).2.rows = (run ops db0).rows ++ [row] ∧
      row.name = r.Name ∧ row.ingredients = r.Ingredients ∧
      row.instructions = r.Instructions ∧ row.prep_time = r.PrepTime ∧
      row.created_at = now ∧
      0 < row.id ∧
      (∀ old ∈ (run ops db0).rows, old.id ≠ row.id) ∧
      (∀ old ∈ db0.rows, old.id ≠ row.id) ∧
      row.id ∉ assignedIds ops db0 ∧
      (getAllRecipes (createRecipe now r (run ops db0)).2).2 = none ∧
      (getAllRecipes (createRecipe now r (run ops db0)).2).1.Perm
        (row.Scan :: (getAllRecipes (run ops db0)).1) ∧
      (getAllRecipes (createRecipe now r (run ops db0)).2).1.filter
        (fun x => x.ID ≠ row.id) = (getAllRecipes (run ops db0)).1 := by
  obtain ⟨v, hn, hdb⟩ := createRecipe_of_success now r (run ops db0) h
  obtain ⟨hseq, hrows⟩ := newRowid_gt (run ops db0) v hn
  obtain ⟨hwf', hids⟩ := run_seq_bound ops db0 (db0.rows.map Row.id) hwf
    (fun i hi => by
      obtain ⟨row, hrow, rfl⟩ := List.mem_map.mp hi
      exact hwf.2 row hrow)
  refine ⟨⟨v, r.Name, r.Ingredients, r.Instructions, r.PrepTime, now⟩, ?_, rfl, rfl, rfl, rfl,
    rfl, ?_, ?_, ?_, ?_, rfl, ?_, ?_⟩
  · rw [hdb]
  · have := hwf'.1
    show (0 : Int) < v
    omega
  · intro old hold
    exact ne_of_lt (hrows old hold)
  · intro old hold
    have := hids old.id (List.mem_append_left _ (List.mem_map_of_mem Row.id hold))
    show old.id ≠ v
    omega
  · intro hmem
    have := hids v (List.mem_append_right _ hmem)
    omega
  · rw [hdb]
    unfold getAllRecipes
    simp only
    rw [← List.map_cons Row.Scan]
    apply List.Perm.map
    refine (List.perm_insertionSort _ _).trans ?_
    refine List.perm_append_comm.trans ?_
    exact List.Perm.cons _ (List.perm_insertionSort _ _).symm
  · rw [hdb]
    have hf := getAllRecipes_filter (fun i => decide (i ≠ v))
      ⟨(run ops db0).rows ++ [⟨v, r.Name, r.Ingredients, r.Instructions, r.PrepTime, now⟩], v⟩ v
    simp only at hf
    rw [← hf]
    have hrowsf : ((run ops db0).rows ++
        [(⟨v, r.Name, r.Ingredients, r.Instructions, r.PrepTime, now⟩ : Row)]).filter
        (fun row => decide (row.id ≠ v)) = (run ops db0).rows := by
      rw [List.filter_append]
      rw [filter_eq_self_of_forall _ _ (fun row hrow => by
        simpa using ne_of_lt (hrows row hrow))]
      simp
    rw [hrowsf]
    rfl

/-- C7 on a fresh database in which recipe 1 was inserted and deleted again: the next
insert succeeds and gets an id that is not 1. -/
theorem createRecipe_assigns_fresh_id_witness :
    Store.empty.WF ∧
    (createRecipe 1700000005 ⟨77, "Sorbet", "fruit", "blend", 20, time.zero⟩
      (run [.create 1700000000 ⟨0, "Vanilla", "cream", "churn", 45, time.zero⟩, .delete 1]
        Store.empty)).1 = none ∧
    assignedIds [.create 1700000000 ⟨0, "Vanilla", "cream", "churn", 45, time.zero⟩, .delete 1]
      Store.empty = [1] ∧
    (createRecipe 1700000005 ⟨77, "Sorbet", "fruit", "blend", 20, time.zero⟩
      (run [.create 1700000000 ⟨0, "Vanilla", "cream", "churn", 45, time.zero⟩, .delete 1]
        Store.empty)).2.rows = [⟨2, "Sorbet", "fruit", "blend", 20, 1700000005⟩] ∧
    ∃ row : Row, 0 < row.id ∧ row.created_at = 1700000005 ∧
      row.id ∉ assignedIds
        [.create 1700000000 ⟨0, "Vanilla", "cream", "churn", 45, time.zero⟩, .delete 1]
        Store.empty :=
  ⟨⟨by decide, by decide⟩, by decide, by decide, by decide,
   (createRecipe_assigns_fresh_id Store.empty
      [.create 1700000000 ⟨0, "Vanilla", "cream", "churn", 45, time.zero⟩, .delete 1]
      1700000005 ⟨77, "Sorbet", "fruit", "blend", 20, time.zero⟩
      ⟨by decide, by decide⟩ (by decide)).imp
    fun _ hrow => ⟨hrow.2.2.2.2.2.2.1, hrow.2.2.2.2.2.1, hrow.2.2.2.2.2.2.2.2.2.1⟩⟩

/-! ## List items -/

theorem foldl_append_eq (l : List String) (init : String) :
    l.foldl (fun r s => r ++ s) init = init ++ String.join l := by
  unfold String.join
  induction l generalizing init with
  | nil => simp
  | cons a l ih =>
    simp only [List.foldl_cons]
    rw [ih (init ++ a), ih ("" ++ a)]
    simp [String.append_assoc]

theorem join_cons_eq (a : String) (l : List String) :
    String.join (a :: l) = a ++ String.join l := by
  have := foldl_append_eq (a :: l) ""
  simp only [List.foldl_cons] at this
  unfold String.join at this ⊢
  simp only [List.foldl_cons]
  rw [foldl_append_eq l ("" ++ a)]
  simp [String.join]

/-- The loop over the lines appends the rendered items of the spec. -/
theorem appendItems_eq (html : String) (list : List String) :
    appendItems html list =
      html ++ String.join
        (((list.map strings.TrimSpace).filter fun line => line ≠ "").map
          fun item => "<li>" ++ item ++ "</li>") := by
  unfold appendItems
  induction list generalizing html with
  | nil => simp [String.join]
  | cons x xs ih =>
    simp only [List.foldl_cons, List.map_cons]
    by_cases hx : strings.TrimSpace x ≠ ""
    · rw [if_pos hx, ih, List.filter_cons_of_pos (by simpa using hx), List.map_cons,
        join_cons_eq]
      simp [String.append_assoc]
    · rw [if_neg hx, ih, List.filter_cons_of_neg (by simpa using hx)]

/-- A grid loop appends the cards one after the other. -/
theorem grid_foldl_eq (cardHead cardTail : Recipe → String) (recipes : List Recipe)
    (html : String) :
    recipes.foldl (fun html recipe =>
      let ingredientsList := strings.Split recipe.Ingredients '\n'
      let html := html ++ cardHead recipe
      let html := appendItems html ingredientsList
      html ++ cardTail recipe) html =
    html ++ String.join (recipes.map fun recipe =>
      cardHead recipe ++ renderItems recipe.Ingredients ++ cardTail recipe) := by
  induction recipes generalizing html with
  | nil => simp [String.join]
  | cons x xs ih =>
    simp only [List.foldl_cons, List.map_cons]
    rw [ih, join_cons_eq, appendItems_eq]
    simp [String.append_assoc, renderItems, listItems]

/-- `splitChars` yields at least one piece. -/
theorem strings.splitChars_ne_nil (sep : Char) : ∀ l : List Char,
    strings.splitChars sep l ≠ []
  | [] => by simp [strings.splitChars]
  | c :: cs => by
    unfold strings.splitChars
    by_cases hc : c = sep
    · rw [if_pos hc]
      exact List.cons_ne_nil _ _
    · rw [if_neg hc]
      cases strings.splitChars sep cs <;> exact List.cons_ne_nil _ _

/-- The pieces of `splitChars` do not contain the separator, and joined by it they give
the sequence back. -/
theorem strings.splitChars_spec (sep : Char) : ∀ l : List Char,
    (∀ piece ∈ strings.splitChars sep l, sep ∉ piece) ∧
    List.intercalate [sep] (strings.splitChars sep l) = l
  | [] => by simp [strings.splitChars, List.intercalate]
  | c :: cs => by
    obtain ⟨ih1, ih2⟩ := strings.splitChars_spec sep cs
    unfold strings.splitChars
    by_cases hc : c = sep
    · rw [if_pos hc]
      refine ⟨?_, ?_⟩
      · intro piece hp
        rcases List.mem_cons.mp hp with rfl | hp
        · simp
        · exact ih1 piece hp
      · cases hs : strings.splitChars sep cs with
        | nil => exact absurd hs (strings.splitChars_ne_nil sep cs)
        | cons l ls =>
          rw [hs] at ih2
          simp only [List.intercalate, List.intersperse] at ih2 ⊢
          simp [hc, ih2]
    · rw [if_neg hc]
      cases hs : strings.splitChars sep cs with
      | nil => exact absurd hs (strings.splitChars_ne_nil sep cs)
      | cons l ls =>
        rw [hs] at ih1 ih2
        refine ⟨?_, ?_⟩
        · intro piece hp
          rcases List.mem_cons.mp hp with rfl | hp
          · intro hmem
            rcases List.mem_cons.mp hmem with h | h
            · exact hc h.symm
            · exact ih1 l (List.mem_cons_self _ _) h
          · exact ih1 piece (List.mem_cons_of_mem _ hp)
        · cases ls with
          | nil =>
            simp [List.intercalate] at ih2 ⊢
            exact ih2
          | cons l2 ls2 =>
            simp [List.intercalate] at ih2 ⊢
            exact ih2

/-- Dropping a prefix stops at the latest at a last element that is to be kept. -/
theorem dropWhile_append_singleton (p : Char → Bool) (x : Char) (hx : p x = false) :
    ∀ l : List Char, (l ++ [x]).dropWhile p = l.dropWhile p ++ [x]
  | [] => by simp [List.dropWhile, hx]
  | a :: l => by
    by_cases ha : p a = true
    · simp [List.dropWhile, ha, dropWhile_append_singleton p x hx l]
    · simp [List.dropWhile, ha]

/-- `TrimSpace` removes white space, and only white space, from both ends, and what is
left neither starts nor ends with white space. -/
theorem strings.TrimSpace_spec (s : String) :
    ∃ pre post : List Char, s.data = pre ++ (strings.TrimSpace s).data ++ post ∧
      (∀ c ∈ pre, strings.IsSpace c = true) ∧ (∀ c ∈ post, strings.IsSpace c = true) ∧
      (∀ c, (strings.TrimSpace s).data.head? = some c → strings.IsSpace c = false) ∧
      (∀ c, (strings.TrimSpace s).data.getLast? = some c → strings.IsSpace c = false) := by
  unfold strings.TrimSpace
  simp only
  refine ⟨s.data.takeWhile strings.IsSpace,
    ((s.data.dropWhile strings.IsSpace).reverse.takeWhile strings.IsSpace).reverse, ?_, ?_, ?_,
    ?_, ?_⟩
  · rw [List.append_assoc, ← List.reverse_append, List.takeWhile_append_dropWhile,
      List.reverse_reverse, List.takeWhile_append_dropWhile]
  · intro c hc
    exact List.mem_takeWhile_imp hc
  · intro c hc
    exact List.mem_takeWhile_imp (List.mem_reverse.mp hc)
  · intro c hc
    cases hb : s.data.dropWhile strings.IsSpace with
    | nil => rw [hb] at hc; simp at hc
    | cons x b =>
      have hx : strings.IsSpace x = false := by
        have := List.head?_dropWhile_not strings.IsSpace s.data
        rw [hb] at this
        simpa using this
      rw [hb, List.reverse_cons, dropWhile_append_singleton _ x hx] at hc
      simp at hc
      rw [← hc]
      exact hx
  · intro c hc
    rw [List.getLast?_reverse] at hc
    have := List.head?_dropWhile_not strings.IsSpace (s.data.dropWhile strings.IsSpace).reverse
    rw [hc] at this
    simpa using this

/-- The pieces of `strings.Split` do not contain the separator, and joined by it they
give the string back. -/
theorem strings.Split_spec (s : String) (sep : Char) :
    (∀ piece ∈ strings.Split s sep, sep ∉ piece.data) ∧
    List.intercalate [sep] ((strings.Split s sep).map String.data) = s.data := by
  obtain ⟨h1, h2⟩ := strings.splitChars_spec sep s.data
  unfold strings.Split
  refine ⟨?_, ?_⟩
  · intro piece hp
    obtain ⟨l, hl, rfl⟩ := List.mem_map.mp hp
    exact h1 l hl
  · rw [List.map_map]
    have : (String.data ∘ String.mk) = id := rfl
    rw [this, List.map_id]
    exact h2

/-- The detail fragment and the three grids are their fixed parts and the rendered items. -/
theorem fragments_eq (t : String) (recipe : Recipe) (recipes : List Recipe) :
    (∀ html, appendItems html (strings.Split t '\n') = html ++ renderItems t) ∧
    recipeDetailHandler.html recipe =
      recipeDetailHandler.htmlHead recipe ++ renderItems recipe.Ingredients ++
      recipeDetailHandler.htmlMid ++ renderItems recipe.Instructions ++
      recipeDetailHandler.htmlTail recipe ∧
    addRecipeFormHandler.grid recipes =
      addRecipeFormHandler.gridHead ++
      String.join (recipes.map fun r => addRecipeFormHandler.cardHead r ++
        renderItems r.Ingredients ++ addRecipeFormHandler.cardTail r) ++
      addRecipeFormHandler.gridTail ∧
    editRecipeHandler.grid recipes =
      editRecipeHandler.gridHead ++
      String.join (recipes.map fun r => editRecipeHandler.cardHead r ++
        renderItems r.Ingredients ++ editRecipeHandler.cardTail r) ++
      editRecipeHandler.gridTail ∧
    deleteRecipeHandler.grid recipes =
      deleteRecipeHandler.gridHead ++
      String.join (recipes.map fun r => deleteRecipeHandler.cardHead r ++
        renderItems r.Ingredients ++ deleteRecipeHandler.cardTail r) ++
      deleteRecipeHandler.gridTail := by
  refine ⟨fun html => appendItems_eq html _, ?_, ?_, ?_, ?_⟩
  · unfold recipeDetailHandler.html
    simp only [appendItems_eq]
    rfl
  · unfold addRecipeFormHandler.grid
    simp only
    rw [grid_foldl_eq]
  · unfold editRecipeHandler.grid
    simp only
    rw [grid_foldl_eq]
  · unfold deleteRecipeHandler.grid
    simp only
    rw [grid_foldl_eq]

/-- `getRecipeByID` returns the first row of the table that has the id. -/
theorem getRecipeByID_of_first (id : Int) (db : Store) (pre rest : List Row) (row : Row)
    (hrows : db.rows = pre ++ row :: rest) (hpre : ∀ r ∈ pre, r.id ≠ id) (hid : row.id = id) :
    getRecipeByID id db = .ok row.Scan := by
  unfold getRecipeByID
  have hnone : pre.find? (fun r => decide (r.id = id)) = none := by
    rw [List.find?_eq_none]
    intro r hr
    simpa using hpre r hr
  rw [hrows, List.find?_append, hnone]
  simp [hid]

/-- The answer of `recipeDetailHandler` for a recipe that is found. -/
theorem recipeDetailHandler_found (m s : String) (f : Except String (List (String × String)))
    (db : Store) (recipe : Recipe) (hs : (strconv.Atoi s).2 = none)
    (hr : getRecipeByID (strconv.Atoi s).1 db = .ok recipe) :
    recipeDetailHandler ⟨m, "/recipe/" ++ s, f⟩ db =
      (⟨"text/html", 200, recipeDetailHandler.html recipe⟩, db) := by
  unfold recipeDetailHandler
  simp only [strings.TrimPrefix_append]
  rcases hA : strconv.Atoi s with ⟨id, err⟩
  rw [hA] at hs hr
  simp only at hs hr
  subst hs
  simp only [ne_eq, not_true_eq_false, if_false, hr]
  rfl

/-- The answer of `addRecipeFormHandler` to a POST whose insert succeeds. -/
theorem addRecipeFormHandler_inserted (now : time.Time) (path : String)
    (form : List (String × String)) (db : Store)
    (h : (createRecipe now (addRecipeFormHandler.newRecipe form) db).1 = none) :
    addRecipeFormHandler now ⟨"POST", path, .ok form⟩ db =
      (⟨"text/html", 200, addRecipeFormHandler.grid
        (getAllRecipes (createRecipe now (addRecipeFormHandler.newRecipe form) db).2).1⟩,
       (createRecipe now (addRecipeFormHandler.newRecipe form) db).2) := by
  unfold addRecipeFormHandler
  simp only [show ("POST" = "GET") = False from by decide, if_false, if_true]
  rcases hc : createRecipe now (addRecipeFormHandler.newRecipe form) db with ⟨err, db1⟩
  rw [hc] at h
  simp only at h
  subst h
  rfl

/-- The answer of `editRecipeHandler` to a PUT with an integer id. -/
theorem editRecipeHandler_updated (s : String) (form : List (String × String)) (db : Store)
    (hs : (strconv.Atoi s).2 = none) :
    editRecipeHandler ⟨"PUT", "/edit-recipe/" ++ s, .ok form⟩ db =
      (⟨"text/html", 200, editRecipeHandler.grid
        (getAllRecipes
          (updateRecipe (editRecipeHandler.updatedRecipe (strconv.Atoi s).1 form) db).2).1⟩,
       (updateRecipe (editRecipeHandler.updatedRecipe (strconv.Atoi s).1 form) db).2) := by
  unfold editRecipeHandler
  simp only [strings.TrimPrefix_append]
  rcases hA : strconv.Atoi s with ⟨id, err⟩
  rw [hA] at hs
  simp only at hs
  subst hs
  simp only [show ("PUT" = "GET") = False from by decide, ne_eq, not_true_eq_false, if_false,
    if_true]
  rfl

/-- The answer of `deleteRecipeHandler` to a DELETE with an integer id. -/
theorem deleteRecipeHandler_deleted (s : String) (f : Except String (List (String × String)))
    (db : Store) (hs : (strconv.Atoi s).2 = none) :
    deleteRecipeHandler ⟨"DELETE", "/delete-recipe/" ++ s, f⟩ db =
      (⟨"text/html", 200, deleteRecipeHandler.grid
        (getAllRecipes (deleteRecipe (strconv.Atoi s).1 db).2).1⟩,
       (deleteRecipe (strconv.Atoi s).1 db).2) := by
  unfold deleteRecipeHandler
  simp only [strings.TrimPrefix_append]
  rcases hA : strconv.Atoi s with ⟨id, err⟩
  rw [hA] at hs
  simp only at hs
  subst hs
  simp only [ne_eq, not_true_eq_false, if_false]
  rfl

theorem exists_append_suffix (a b c suf : String) (h : b = c ++ suf) :
    ∃ pre, a ++ b = pre ++ suf :=
  ⟨a ++ c, by rw [h, String.append_assoc]⟩

theorem exists_prefix_append (p a b : String) (h : ∃ post, a = p ++ post) :
    ∃ post, a ++ b = p ++ post := by
  obtain ⟨post, hp⟩ := h
  exact ⟨post ++ b, by rw [hp, String.append_assoc]⟩

/-- The items of the detail fragment stand right inside its `<ul>` and its `<ol>`. -/
theorem detail_boundaries (recipe : Recipe) :
    (∃ pre, recipeDetailHandler.htmlHead recipe = pre ++ "<ul>") ∧
    (∃ post, recipeDetailHandler.htmlMid = "</ul>" ++ post) ∧
    (∃ pre, recipeDetailHandler.htmlMid = pre ++ "<ol>") ∧
    (∃ post, recipeDetailHandler.htmlTail recipe = "</ol>" ++ post) := by
  refine ⟨?_, ?_, ?_, ?_⟩
  · unfold recipeDetailHandler.htmlHead
    exact exists_append_suffix _ _ "\t\t\t" "<ul>" (by decide)
  · unfold recipeDetailHandler.htmlMid
    repeat apply exists_prefix_append
    exact ⟨"\n", by decide⟩
  · unfold recipeDetailHandler.htmlMid
    exact exists_append_suffix _ _ "\t\t\t" "<ol>" (by decide)
  · unfold recipeDetailHandler.htmlTail
    repeat apply exists_prefix_append
    exact ⟨"\n", by decide⟩

/-- The items of a card stand right inside its `<ul>`. -/
theorem card_boundaries (recipe : Recipe) :
    (∃ pre, addRecipeFormHandler.cardHead recipe = pre ++ "<ul>") ∧
    (∃ post, addRecipeFormHandler.cardTail recipe = "</ul>" ++ post) ∧
    (∃ pre, editRecipeHandler.cardHead recipe = pre ++ "<ul>") ∧
    (∃ post, editRecipeHandler.cardTail recipe = "</ul>" ++ post) ∧
    (∃ pre, deleteRecipeHandler.cardHead recipe = pre ++ "<ul>") ∧
    (∃ post, deleteRecipeHandler.cardTail recipe = "</ul>" ++ post) := by
  refine ⟨?_, ?_, ?_, ?_, ?_, ?_⟩
  · unfold addRecipeFormHandler.cardHead
    exact exists_append_suffix _ _ "\t\t\t\t" "<ul>" (by decide)
  · unfold addRecipeFormHandler.cardTail
    repeat apply exists_prefix_append
    exact ⟨"\n", by decide⟩
  · unfold editRecipeHandler.cardHead
    exact exists_append_suffix _ _ "\t\t\t\t" "<ul>" (by decide)
  · unfold editRecipeHandler.cardTail
    repeat apply exists_prefix_append
    exact ⟨"\n", by decide⟩
  · unfold deleteRecipeHandler.cardHead
    exact exists_append_suffix _ _ "\t\t\t" "<ul>" (by decide)
  · unfold deleteRecipeHandler.cardTail
    repeat apply exists_prefix_append
    exact ⟨"\n", by decide⟩

/-- C9: the `<li>` items the fragments render for a recipe text `t` are `renderItems t`:
the lines of `t` between newlines that are not empty after trimming, each trimmed, in
their order and with nothing in between.  The lines are the pieces of `t` that contain no
newline and give `t` back when joined by newlines; trimming takes white space, and only
white space, from both ends until neither end is white space.  The loop that every
fragment runs on the lines of `t` appends exactly the items.  The response of
`recipeDetailHandler` for a stored recipe is
200 with the head of the detail fragment, which ends in `<ul>`, the items of the
ingredients, the middle, which leads from `</ul>` to `<ol>`, the items of the
instructions, and the tail, which starts with `</ol>`.  The responses of
`addRecipeFormHandler` to a POST whose insert succeeds, of `editRecipeHandler` to a PUT
and of `deleteRecipeHandler` to a DELETE are 200 with the grid head, then for each recipe
of `getAllRecipes` on the new database the card head, which ends in `<ul>`, the items of
its ingredients and the card tail, which starts with `</ul>`, then the grid tail. -/
theorem list_items_rendered (t : String) :
    (∀ html, appendItems html (strings.Split t '\n') = html ++ renderItems t) ∧
    (∀ (m s : String) (f : Except String (List (String × String))) (db : Store)
      (pre rest : List Row) (row : Row),
      (strconv.Atoi s).2 = none → db.rows = pre ++ row :: rest →
      (∀ r ∈ pre, r.id ≠ (strconv.Atoi s).1) → row.id = (strconv.Atoi s).1 →
      recipeDetailHandler ⟨m, "/recipe/" ++ s, f⟩ db =
        (⟨"text/html", 200,
          recipeDetailHandler.htmlHead row.Scan ++ renderItems row.ingredients ++
          recipeDetailHandler.htmlMid ++ renderItems row.instructions ++
          recipeDetailHandler.htmlTail row.Scan⟩, db)) ∧
    (∀ (now : time.Time) (path : String) (form : List (String × String)) (db : Store),
      (createRecipe now (addRecipeFormHandler.newRecipe form) db).1 = none →
      (addRecipeFormHandler now ⟨"POST", path, .ok form⟩ db).1 =
        ⟨"text/html", 200,
          addRecipeFormHandler.gridHead ++
          String.join
            ((getAllRecipes (createRecipe now (addRecipeFormHandler.newRecipe form) db).2).1.map
              fun r => addRecipeFormHandler.cardHead r ++ renderItems r.Ingredients ++
                addRecipeFormHandler.cardTail r) ++
          addRecipeFormHandler.gridTail⟩) ∧
    (∀ (s : String) (form : List (String × String)) (db : Store),
      (strconv.Atoi s).2 = none →
      (editRecipeHandler ⟨"PUT", "/edit-recipe/" ++ s, .ok form⟩ db).1 =
        ⟨"text/html", 200,
          editRecipeHandler.gridHead ++
          String.join
            ((getAllRecipes (updateRecipe
              (editRecipeHandler.updatedRecipe (strconv.Atoi s).1 form) db).2).1.map
              fun r => editRecipeHandler.cardHead r ++ renderItems r.Ingredients ++
                editRecipeHandler.cardTail r) ++
          editRecipeHandler.gridTail⟩) ∧
    (∀ (s : String) (f : Except String (List (String × String))) (db : Store),
      (strconv.Atoi s).2 = none →
      (deleteRecipeHandler ⟨"DELETE", "/delete-recipe/" ++ s, f⟩ db).1 =
        ⟨"text/html", 200,
          deleteRecipeHandler.gridHead ++
          String.join
            ((getAllRecipes (deleteRecipe (strconv.Atoi s).1 db).2).1.map
              fun r => deleteRecipeHandler.cardHead r ++ renderItems r.Ingredients ++
                deleteRecipeHandler.cardTail r) ++
          deleteRecipeHandler.gridTail⟩) ∧
    (∀ recipe : Recipe,
      (∃ pre, recipeDetailHandler.htmlHead recipe = pre ++ "<ul>") ∧
      (∃ post, recipeDetailHandler.htmlMid = "</ul>" ++ post) ∧
      (∃ pre, recipeDetailHandler.htmlMid = pre ++ "<ol>") ∧
      (∃ post, recipeDetailHandler.htmlTail recipe = "</ol>" ++ post) ∧
      (∃ pre, addRecipeFormHandler.cardHead recipe = pre ++ "<ul>") ∧
      (∃ post, addRecipeFormHandler.cardTail recipe = "</ul>" ++ post) ∧
      (∃ pre, editRecipeHandler.cardHead recipe = pre ++ "<ul>") ∧
      (∃ post, editRecipeHandler.cardTail recipe = "</ul>" ++ post) ∧
      (∃ pre, deleteRecipeHandler.cardHead recipe = pre ++ "<ul>") ∧
      (∃ post, deleteRecipeHandler.cardTail recipe = "</ul>" ++ post)) ∧
    ((∀ line ∈ strings.Split t '\n', '\n' ∉ line.data) ∧
      List.intercalate ['\n'] ((strings.Split t '\n').map String.data) = t.data) ∧
    (∀ line : String, ∃ pre post : List Char,
      line.data = pre ++ (strings.TrimSpace line).data ++ post ∧
      (∀ c ∈ pre, strings.IsSpace c = true) ∧ (∀ c ∈ post, strings.IsSpace c = true) ∧
      (∀ c, (strings.TrimSpace line).data.head? = some c → strings.IsSpace c = false) ∧
      (∀ c, (strings.TrimSpace line).data.getLast? = some c → strings.IsSpace c = false)) := by
  refine ⟨fun html => appendItems_eq html _, ?_, ?_, ?_, ?_, ?_, strings.Split_spec t '\n',
    strings.TrimSpace_spec⟩
  · intro m s f db pre rest row hs hrows hpre hid
    rw [recipeDetailHandler_found m s f db row.Scan hs
      (getRecipeByID_of_first _ db pre rest row hrows hpre hid),
      (fragments_eq t row.Scan []).2.1]
    rfl
  · intro now path form db h
    rw [addRecipeFormHandler_inserted now path form db h, (fragments_eq t ⟨0, "", "", "", 0, 0⟩ _).2.2.1]
  · intro s form db hs
    rw [editRecipeHandler_updated s form db hs, (fragments_eq t ⟨0, "", "", "", 0, 0⟩ _).2.2.2.1]
  · intro s f db hs
    rw [deleteRecipeHandler_deleted s f db hs, (fragments_eq t ⟨0, "", "", "", 0, 0⟩ _).2.2.2.2]
  · intro recipe
    obtain ⟨h1, h2, h3, h4⟩ := detail_boundaries recipe
    obtain ⟨c1, c2, c3, c4, c5, c6⟩ := card_boundaries recipe
    exact ⟨h1, h2, h3, h4, c1, c2, c3, c4, c5, c6⟩

set_option maxRecDepth 100000

/-- C9 on the example of the spec: after the POST of the recipe `Sorbet` with the
ingredients `fruit` and `sugar` on two lines, the response is 200 and its only card has
exactly the two items; blank lines and surrounding white space are dropped. -/
theorem list_items_rendered_witness :
    listItems "fruit\nsugar" = ["fruit", "sugar"] ∧
    listItems "  fruit \r\n\n \t\nsugar\n" = ["fruit", "sugar"] ∧
    (addRecipeFormHandler 1700000000 ⟨"POST", "/add-recipe",
      .ok [("name", "Sorbet"), ("ingredients", "fruit\nsugar"),
           ("instructions", "blend\nfreeze"), ("prep_time", "20")]⟩ Store.empty).1 =
      ⟨"text/html", 200,
        addRecipeFormHandler.gridHead ++
        (addRecipeFormHandler.cardHead ⟨1, "Sorbet", "fruit\nsugar", "blend\nfreeze", 20, 1700000000⟩ ++
          "<li>fruit</li><li>sugar</li>" ++
          addRecipeFormHandler.cardTail ⟨1, "Sorbet", "fruit\nsugar", "blend\nfreeze", 20, 1700000000⟩) ++
        addRecipeFormHandler.gridTail⟩ ∧
    renderItems "fruit\nsugar" = "<li>fruit</li><li>sugar</li>" ∧
    renderItems " blend\n\nfreeze " = "<li>blend</li><li>freeze</li>" ∧
    recipeDetailHandler ⟨"GET", "/recipe/" ++ "1", .ok []⟩
      ⟨[] ++ ⟨1, "Sorbet", "fruit\nsugar", " blend\n\nfreeze ", 20, 1700000000⟩ :: [], 1⟩ =
      (⟨"text/html", 200,
        recipeDetailHandler.htmlHead
          ⟨1, "Sorbet", "fruit\nsugar", " blend\n\nfreeze ", 20, 1700000000⟩ ++
        renderItems "fruit\nsugar" ++ recipeDetailHandler.htmlMid ++
        renderItems " blend\n\nfreeze " ++
        recipeDetailHandler.htmlTail
          ⟨1, "Sorbet", "fruit\nsugar", " blend\n\nfreeze ", 20, 1700000000⟩⟩,
       ⟨[] ++ ⟨1, "Sorbet", "fruit\nsugar", " blend\n\nfreeze ", 20, 1700000000⟩ :: [], 1⟩) ∧
    appendItems "<ul>" (strings.Split "fruit\nsugar" '\n') =
      "<ul>" ++ renderItems "fruit\nsugar" :=
  ⟨by decide, by decide, by decide, by decide, by decide,
   (list_items_rendered "fruit\nsugar").2.1 "GET" "1" (.ok [])
     ⟨[] ++ ⟨1, "Sorbet", "fruit\nsugar", " blend\n\nfreeze ", 20, 1700000000⟩ :: [], 1⟩
     [] [] ⟨1, "Sorbet", "fruit\nsugar", " blend\n\nfreeze ", 20, 1700000000⟩
     (by decide) rfl (by decide) (by decide),
   (list_items_rendered "fruit\nsugar").1 "<ul>"⟩

end RecipeBook
